import Mathlib

/-!
Shallow embedding of the CSV-import worker of the insurance-api repository
(`processCSV` and its helper resolvers, together with the mongoose schemas
under `src/models`).  Pure data is modelled directly; the MongoDB store is a
record of in-memory collections; mongoose ObjectIds are natural numbers
handed out by a `nextId` counter; JavaScript `Date` parsing (`new Date(s)`
plus the `isNaN(getTime())` check) is an oracle parameter
`pd : String → Option Nat` mapping a raw string to `some timestamp` when it
parses to a valid calendar date and `none` otherwise.  Exceptions are
modelled with `Option String` / `Except String`; the one throwing storage
operation in this embedding is `User.create`, whose mongoose schema
(src/models/User.js) declares `firstname` and `dob` as `required`, so that
creating a user with an empty first name or a null date of birth raises a
validation error.  Storage operations are logged in an `ops` trace so that
theorems can count storage round-trips.
-/

namespace CsvWorker

/-- One parsed CSV row (`parse` with `columns: true, trim: true` yields a
string for every declared column; an empty cell is the empty string, which
is exactly the falsy case of the worker's truthiness tests). -/
structure CsvRecord where
  agent : String
  category_name : String
  company_name : String
  account_name : String
  firstname : String
  dob : String
  address : String
  phone : String
  state : String
  zip : String
  email : String
  gender : String
  userType : String
  policy_number : String
  policy_start_date : String
  policy_end_date : String
deriving DecidableEq

/-- The four reference-entity families resolved by name
(`getOrCreateAgent` / `getOrCreateLOB` / `getOrCreateCarrier` /
`getOrCreateUserAccount`). -/
inductive Family
  | agent
  | lob
  | carrier
  | account
deriving DecidableEq

/-- A logged storage round-trip: `findOne` / `create` calls issued by the
resolvers (instrumentation used to state the cache-correctness claims). -/
inductive StoreOp
  | lookup (f : Family) (label : String)
  | create (f : Family) (label : String)
  | userLookup (firstname : String) (email : String)
  | userCreate (firstname : String)
deriving DecidableEq

/-- A stored `User` document (src/models/User.js).  `dob` is the parsed
date; the other fields are the raw strings the worker passes to
`User.create` (with `|| ''` defaults). -/
structure UserDoc where
  firstname : String
  dob : Option Nat
  address : String
  phone : String
  state : String
  zip : String
  email : String
  gender : String
  userType : String
deriving DecidableEq

/-- A stored `Policy` document, with the fields `processCSV` passes to
`Policy.create`. -/
structure PolicyDoc where
  policy_number : String
  policy_start_date : Nat
  policy_end_date : Nat
  policy_category_id : Nat
  company_collection_id : Nat
  user_id : Nat
deriving DecidableEq

/-- The MongoDB collections the worker touches.  Reference collections map
an ObjectId to the entity's name field.  `nextId` models ObjectId
generation (ids start at 1; an ObjectId is never a falsy JavaScript
value). -/
structure Store where
  agents : List (Nat × String)
  lobs : List (Nat × String)
  carriers : List (Nat × String)
  accounts : List (Nat × String)
  users : List (Nat × UserDoc)
  policies : List PolicyDoc
  nextId : Nat
deriving DecidableEq

/-- One entry of the worker's `errorsList`. -/
structure ErrEntry where
  row : Nat
  error : String
  record : String
deriving DecidableEq

/-- A message posted to the parent thread through `parentPort`. -/
inductive Msg
  | progress (processed : Nat) (total : Nat)
  | done (success : Bool) (processed : Nat) (errors : Nat) (total : Nat)
      (errorsList : List ErrEntry)
  | error (error : String)
deriving DecidableEq

/-- The whole mutable state of one `processCSV` run: the store, the five
per-run caches, the counters, the error list, the messages posted so far
and the storage-operation trace. -/
structure RunState where
  store : Store
  agentCache : List (String × Nat)
  lobCache : List (String × Nat)
  carrierCache : List (String × Nat)
  accountCache : List (String × Nat)
  userCache : List (String × Nat)
  processed : Nat
  errors : Nat
  errorsList : List ErrEntry
  msgs : List Msg
  ops : List StoreOp
deriving DecidableEq

/-- `Map.get`/`Map.has` on a cache modelled as an association list (newest
binding first, as produced by `Map.set`). -/
def mapFind (m : List (String × Nat)) (k : String) : Option Nat :=
  match m with
  | [] => none
  | (k2, v) :: rest => if k2 = k then some v else mapFind rest k

/-- `findOne` on a reference collection by its name field. -/
def collFind (l : List (Nat × String)) (name : String) : Option Nat :=
  match l with
  | [] => none
  | (id, n) :: rest => if n = name then some id else collFind rest name

/-- `User.findOne { firstname, email }`. -/
def userFind (l : List (Nat × UserDoc)) (fn : String) (em : String) : Option Nat :=
  match l with
  | [] => none
  | (id, u) :: rest =>
    if u.firstname = fn ∧ u.email = em then some id else userFind rest fn em

/-- `Policy.findOne { policy_number }`. -/
def policyFind (l : List PolicyDoc) (pn : String) : Option PolicyDoc :=
  match l with
  | [] => none
  | p :: rest => if p.policy_number = pn then some p else policyFind rest pn

/-- The state a reference resolver reads and writes: its cache, its
collection, the id counter and the op trace. -/
structure RefState where
  cache : List (String × Nat)
  coll : List (Nat × String)
  nextId : Nat
  ops : List StoreOp
deriving DecidableEq

/-- The shared body of `getOrCreateAgent` / `getOrCreateLOB` /
`getOrCreateCarrier` / `getOrCreateUserAccount`, which are textually
identical up to the collection and field names: empty label returns null;
cache hit returns the cached id with no storage access; otherwise
`findOne`, then `create` when absent, then `cache.set`.
(`Modelled from the spec:` the Agent/LOB/Carrier mongoose models are not
under src/, so reference-entity `create` is modelled from spec section 3 as
always succeeding; all call sites pass a non-empty name, so the
`required` name field of the in-src UserAccount schema also never fails.) -/
def refResolve (f : Family) (label : String) (rs : RefState) : Option Nat × RefState :=
  if label = "" then (none, rs)
  else
    match mapFind rs.cache label with
    | some id => (some id, rs)
    | none =>
      match collFind rs.coll label with
      | some id =>
        (some id,
          { rs with
            cache := (label, id) :: rs.cache
            ops := rs.ops ++ [StoreOp.lookup f label] })
      | none =>
        (some rs.nextId,
          { cache := (label, rs.nextId) :: rs.cache
            coll := (rs.nextId, label) :: rs.coll
            nextId := rs.nextId + 1
            ops := rs.ops ++ [StoreOp.lookup f label, StoreOp.create f label] })

/-- Project the sub-state a family's resolver works on out of the run
state. -/
def getRef (f : Family) (st : RunState) : RefState :=
  match f with
  | Family.agent => ⟨st.agentCache, st.store.agents, st.store.nextId, st.ops⟩
  | Family.lob => ⟨st.lobCache, st.store.lobs, st.store.nextId, st.ops⟩
  | Family.carrier => ⟨st.carrierCache, st.store.carriers, st.store.nextId, st.ops⟩
  | Family.account => ⟨st.accountCache, st.store.accounts, st.store.nextId, st.ops⟩

/-- Write a family's resolver sub-state back into the run state. -/
def setRef (f : Family) (st : RunState) (rs : RefState) : RunState :=
  match f with
  | Family.agent =>
    { st with agentCache := rs.cache, ops := rs.ops
              store := { st.store with agents := rs.coll, nextId := rs.nextId } }
  | Family.lob =>
    { st with lobCache := rs.cache, ops := rs.ops
              store := { st.store with lobs := rs.coll, nextId := rs.nextId } }
  | Family.carrier =>
    { st with carrierCache := rs.cache, ops := rs.ops
              store := { st.store with carriers := rs.coll, nextId := rs.nextId } }
  | Family.account =>
    { st with accountCache := rs.cache, ops := rs.ops
              store := { st.store with accounts := rs.coll, nextId := rs.nextId } }

/-- Generic get-or-create for one reference family, acting on the run
state. -/
def getOrCreateRef (f : Family) (label : String) (st : RunState) : Option Nat × RunState :=
  let p := refResolve f label (getRef f st)
  (p.1, setRef f st p.2)

/-- `getOrCreateAgent` (src/unnamed/part_000, lines 373-386). -/
def getOrCreateAgent (agentName : String) (st : RunState) : Option Nat × RunState :=
  getOrCreateRef Family.agent agentName st

/-- `getOrCreateLOB` (src/unnamed/part_000, lines 389-402). -/
def getOrCreateLOB (categoryName : String) (st : RunState) : Option Nat × RunState :=
  getOrCreateRef Family.lob categoryName st

/-- `getOrCreateCarrier` (src/unnamed/part_000, lines 405-418). -/
def getOrCreateCarrier (companyName : String) (st : RunState) : Option Nat × RunState :=
  getOrCreateRef Family.carrier companyName st

/-- `getOrCreateUserAccount` (src/unnamed/part_000, lines 421-434). -/
def getOrCreateUserAccount (accountName : String) (st : RunState) : Option Nat × RunState :=
  getOrCreateRef Family.account accountName st

/-- The date-parsing pattern used for the user dob (lines 445-451) and the
two policy dates (lines 508-518): a falsy (empty) string stays null;
otherwise `new Date(s)` is taken, and an invalid date is reset to null. -/
def parseDateField (pd : String → Option Nat) (s : String) : Option Nat :=
  if s ≠ "" then pd s else none

/-- The `userData` bundle `processCSV` builds from a record. -/
structure UserData where
  firstname : String
  dob : String
  address : String
  phone : String
  state : String
  zip : String
  email : String
  gender : String
  userType : String
deriving DecidableEq

/-- The per-run user-cache key: the template literal
firstname + "_" + email + "_" + raw dob string. -/
def userKey (ud : UserData) : String :=
  ud.firstname ++ "_" ++ ud.email ++ "_" ++ ud.dob

/-- The document `User.create` is handed for a user-data bundle (with the
source's `|| \'\'` defaults collapsing to the empty-string encoding of a
missing field). -/
def newUserDoc (pd : String → Option Nat) (ud : UserData) : UserDoc :=
  ⟨ud.firstname, parseDateField pd ud.dob, ud.address, ud.phone, ud.state,
   ud.zip, ud.email, ud.gender, ud.userType⟩

/-- The sub-state `getOrCreateUser` works on. -/
structure UserResState where
  cache : List (String × Nat)
  users : List (Nat × UserDoc)
  nextId : Nat
  ops : List StoreOp
deriving DecidableEq

/-- Core of `getOrCreateUser` (src/unnamed/part_000, lines 437-478):
cache hit short-circuits; the dob string is parsed (invalid dates become
null); `User.findOne` runs only when both firstname and email are truthy;
when nothing is found `User.create` runs.  The User schema
(src/models/User.js) declares `firstname` and `dob` as `required`, and
mongoose rejects an empty string / a null date on those paths, so the
create throws a validation error exactly when the first name is empty or
the parsed dob is null; validation happens client-side, before any storage
write.  On a throw the cache is not updated (the `userCache.set` line is
never reached). -/
def userResolve (pd : String → Option Nat) (ud : UserData) (us : UserResState) :
    Except String Nat × UserResState :=
  match mapFind us.cache (userKey ud) with
  | some id => (Except.ok id, us)
  | none =>
    let dob : Option Nat := parseDateField pd ud.dob
    let us1 :=
      if ud.firstname ≠ "" ∧ ud.email ≠ "" then
        { us with ops := us.ops ++ [StoreOp.userLookup ud.firstname ud.email] }
      else us
    let found : Option Nat :=
      if ud.firstname ≠ "" ∧ ud.email ≠ "" then userFind us.users ud.firstname ud.email
      else none
    match found with
    | some id =>
      (Except.ok id, { us1 with cache := (userKey ud, id) :: us1.cache })
    | none =>
      if ud.firstname = "" ∨ dob = none then
        (Except.error "User validation failed", us1)
      else
        (Except.ok us1.nextId,
          { cache := (userKey ud, us1.nextId) :: us1.cache
            users := (us1.nextId, newUserDoc pd ud) :: us1.users
            nextId := us1.nextId + 1
            ops := us1.ops ++ [StoreOp.userCreate ud.firstname] })

/-- `getOrCreateUser` acting on the run state. -/
def getOrCreateUser (pd : String → Option Nat) (ud : UserData) (st : RunState) :
    Except String Nat × RunState :=
  let p := userResolve pd ud ⟨st.userCache, st.store.users, st.store.nextId, st.ops⟩
  (p.1,
    { st with userCache := p.2.cache, ops := p.2.ops
              store := { st.store with users := p.2.users, nextId := p.2.nextId } })

/-- The user-data bundle `processCSV` passes to `getOrCreateUser` for a
record (src/unnamed/part_000, lines 493-503). -/
def userDataOf (r : CsvRecord) : UserData :=
  ⟨r.firstname, r.dob, r.address, r.phone, r.state, r.zip, r.email, r.gender,
   r.userType⟩

/-- The policy section of the per-record body (lines 520-533).  The
JavaScript guard is
`policy_number && lobId && carrierId && userId && startDate && endDate`;
`userId` is a mongoose ObjectId, which is always truthy, so it imposes no
further condition once `getOrCreateUser` has returned.  When the guard
holds, `Policy.findOne` runs and `Policy.create` only when no policy with
that number exists.  (`Modelled from the spec:` the Policy mongoose model
is not under src/; following spec section 3, `Policy.create` with all
references and both dates present always succeeds.) -/
def policiesAfter (r : CsvRecord) (lobId carrierId : Option Nat) (userId : Nat)
    (startDate endDate : Option Nat) (policies : List PolicyDoc) : List PolicyDoc :=
  match lobId, carrierId, startDate, endDate with
  | some lid, some cid, some sd, some ed =>
    if r.policy_number ≠ "" then
      match policyFind policies r.policy_number with
      | some _ => policies
      | none => ⟨r.policy_number, sd, ed, lid, cid, userId⟩ :: policies
    else policies
  | _, _, _, _ => policies

/-- The policy section acting on the run state. -/
def policyStep (r : CsvRecord) (lobId carrierId : Option Nat) (userId : Nat)
    (startDate endDate : Option Nat) (st : RunState) : RunState :=
  { st with store :=
      { st.store with policies :=
          policiesAfter r lobId carrierId userId startDate endDate st.store.policies } }

/-- The first three resolver calls of the per-record body (lines 488-490):
agent, LOB, carrier, in source order.  Returns the lob id, the carrier id
and the state after the three calls (the agent id is never used again). -/
def afterCarrier (r : CsvRecord) (st : RunState) : Option Nat × Option Nat × RunState :=
  let a := getOrCreateAgent r.agent st
  let l := getOrCreateLOB r.category_name a.2
  let c := getOrCreateCarrier r.company_name l.2
  (l.1, c.1, c.2)

/-- The body of the per-record `try` block (lines 486-544): resolve the
reference entities and the user, resolve the account, parse the two policy
dates, maybe create the policy, increment `processed`, and post a progress
message when `processed` is a multiple of 50.  Returns `some message` when
an exception was thrown (the only throwing operation is `User.create`),
together with the state at the throw point — everything the resolvers did
before the throw persists. -/
def processRecordBody (pd : String → Option Nat) (total : Nat) (r : CsvRecord)
    (st : RunState) : Option String × RunState :=
  let ac := afterCarrier r st
  let u := getOrCreateUser pd (userDataOf r) ac.2.2
  match u.1 with
  | Except.error e => (some e, u.2)
  | Except.ok userId =>
    let st5 := (getOrCreateUserAccount r.account_name u.2).2
    let st6 := policyStep r ac.1 ac.2.1 userId (parseDateField pd r.policy_start_date)
      (parseDateField pd r.policy_end_date) st5
    let st7 := { st6 with processed := st6.processed + 1 }
    let st8 :=
      if st7.processed % 50 = 0 then
        { st7 with msgs := st7.msgs ++ [Msg.progress st7.processed total] }
      else st7
    (none, st8)

/-- `record.policy_number || 'N/A'` in the catch block. -/
def pnOrNA (r : CsvRecord) : String :=
  if r.policy_number ≠ "" then r.policy_number else "N/A"

/-- One record of the batch loop, `try` body plus `catch` handler
(lines 485-553).  `rowIdx` is the 1-based row number recorded in the error
entry: the source computes it as `i + batch.indexOf(record) + 1`, and since
parsed records are reference-distinct JavaScript objects, `indexOf` always
recovers the record's position inside its batch, so the recorded number is
the record's absolute 1-based position. -/
def processRow (pd : String → Option Nat) (total rowIdx : Nat) (r : CsvRecord)
    (st : RunState) : RunState :=
  match processRecordBody pd total r st with
  | (none, st2) => st2
  | (some e, st2) =>
    { st2 with errors := st2.errors + 1
               errorsList := st2.errorsList ++ [⟨rowIdx, e, pnOrNA r⟩] }

/-- The record sequence processed one row at a time in input order, `i`
rows already consumed.  This is the reference (unbatched) iteration the
batched driver refines. -/
def processRowsFrom (pd : String → Option Nat) (total : Nat) :
    List CsvRecord → Nat → RunState → RunState
  | [], _, st => st
  | r :: rest, i, st =>
    processRowsFrom pd total rest (i + 1) (processRow pd total (i + 1) r st)

/-- The inner `for (const record of batch)` loop (lines 485-553): `i0` is
the batch's start offset `i`, `j` the position of the next record inside
the batch. -/
def processBatchRows (pd : String → Option Nat) (total i0 : Nat) :
    List CsvRecord → Nat → RunState → RunState
  | [], _, st => st
  | r :: rest, j, st =>
    processBatchRows pd total i0 rest (j + 1) (processRow pd total (i0 + j + 1) r st)

/-- The outer batch loop (lines 481-554):
`for (let i = 0; i < records.length; i += batchSize)` over
`records.slice(i, i + batchSize)`.  For `1 ≤ bs` the head-plus-tail
decomposition `r :: rest.take (bs - 1)` / `rest.drop (bs - 1)` is exactly
`slice(i, i + bs)` / the remaining records (for `bs = 0` the source loop
never terminates, so the embedding is only meaningful for `1 ≤ bs`; the
source fixes `bs = 100`). -/
def processBatchesAux (pd : String → Option Nat) (total bs : Nat) :
    Nat → List CsvRecord → Nat → RunState → RunState
  | _, [], _, st => st
  | 0, _ :: _, _, st => st
  | fuel + 1, r :: rest, i0, st =>
    processBatchesAux pd total bs fuel (rest.drop (bs - 1)) (i0 + bs)
      (processBatchRows pd total i0 (r :: rest.take (bs - 1)) 0 st)

/-- The outer batch loop, entered with enough fuel for the whole record
list (each iteration consumes at least the batch head, so `l.length` steps
always suffice and the fuel-exhausted branch is unreachable). -/
def processBatches (pd : String → Option Nat) (total bs : Nat)
    (l : List CsvRecord) (i0 : Nat) (st : RunState) : RunState :=
  processBatchesAux pd total bs l.length l i0 st

/-- The run state a `processCSV` run starts from: the pre-existing store
(imports share one MongoDB database), empty caches, zeroed counters,
nothing posted, nothing logged. -/
def initRun (store0 : Store) : RunState :=
  ⟨store0, [], [], [], [], [], 0, 0, [], [], []⟩

/-- The store as seen by a run against a fresh database. -/
def emptyStore : Store :=
  ⟨[], [], [], [], [], [], 1⟩

/-- The final run state of `processCSV` over a parsed record list, starting
from the store `store0` (batch size 100 as in the source). -/
def runStateFrom (pd : String → Option Nat) (store0 : Store)
    (records : List CsvRecord) : RunState :=
  processBatches pd records.length 100 records 0 (initRun store0)

/-- The final `done` message (lines 558-565): full counters, the total, and
only the first 10 error entries. -/
def doneMsg (total : Nat) (st : RunState) : Msg :=
  Msg.done true st.processed st.errors total (st.errorsList.take 10)

/-- Every message a successfully connected, successfully parsed run posts,
in order: the progress messages followed by the single `done`. -/
def workerMsgs (pd : String → Option Nat) (store0 : Store)
    (records : List CsvRecord) : List Msg :=
  (runStateFrom pd store0 records).msgs ++
    [doneMsg records.length (runStateFrom pd store0 records)]

/-- The whole worker entry (lines 345-572): `mongoose.connect`, then
`parse`, then the batch loop and the `done` message; any failure outside
the per-row try lands in the outer catch, which posts a single `error`
message.  The connect outcome and the whole-payload parse outcome are
oracle inputs (both are external libraries). -/
def runWorker (connect : Except String Unit)
    (parsed : Except String (List CsvRecord)) (pd : String → Option Nat)
    (store0 : Store) : List Msg :=
  match connect with
  | Except.error e => [Msg.error e]
  | Except.ok _ =>
    match parsed with
    | Except.error e => [Msg.error e]
    | Except.ok records => workerMsgs pd store0 records

/-- The cache a family's resolver consults, as a projection of the run
state. -/
def cacheOf (f : Family) (st : RunState) : List (String × Nat) :=
  match f with
  | Family.agent => st.agentCache
  | Family.lob => st.lobCache
  | Family.carrier => st.carrierCache
  | Family.account => st.accountCache

/-- Number of occurrences of one storage operation in a trace. -/
def countOp (o : StoreOp) (l : List StoreOp) : Nat :=
  (l.filter (fun x => decide (x = o))).length

/-- The raw label a record carries for a reference family. -/
def labelOf (f : Family) (r : CsvRecord) : String :=
  match f with
  | Family.agent => r.agent
  | Family.lob => r.category_name
  | Family.carrier => r.company_name
  | Family.account => r.account_name

/-- The cache-correctness invariant: for every family and non-empty label,
the trace holds exactly one lookup when the label has been cached (and none
otherwise), and never more creates than lookups. -/
def refInv (st : RunState) : Prop :=
  ∀ (f : Family) (l : String), l ≠ "" →
    countOp (StoreOp.lookup f l) st.ops =
      (if (mapFind (cacheOf f st) l).isSome then 1 else 0) ∧
    countOp (StoreOp.create f l) st.ops ≤ countOp (StoreOp.lookup f l) st.ops

/-- The outcome of the user-resolution step of a record, with the state the
three reference resolvers have already threaded through. -/
def userStepOf (pd : String → Option Nat) (r : CsvRecord) (st : RunState) :
    Except String Nat × RunState :=
  getOrCreateUser pd (userDataOf r) (afterCarrier r st).2.2

/-- A row with every cell empty (concrete test fixture). -/
def blankRow : CsvRecord :=
  ⟨"", "", "", "", "", "", "", "", "", "", "", "", "", "", "", ""⟩

/-- A date oracle on which nothing parses (concrete test fixture standing
for `new Date` on payloads with no valid date strings). -/
def pdNone : String → Option Nat := fun _ => none

/-- A date oracle recognising the two sample ISO dates used by concrete
runs (standing for `new Date` on those strings; everything else, e.g.
"31-31-2020", is an Invalid Date). -/
def pdStd : String → Option Nat := fun s =>
  if s = "2020-01-01" then some 100 else if s = "2021-01-01" then some 200 else none

/-- A well-formed sample row: person fields valid, no policy data. -/
def goodRow : CsvRecord :=
  { blankRow with firstname := "A", dob := "2020-01-01" }

/-- A row carrying a complete, valid policy (concrete test fixture). -/
def goodPolicyRow : CsvRecord :=
  { goodRow with policy_number := "P1", category_name := "Auto",
                 company_name := "Acme", policy_start_date := "2020-01-01",
                 policy_end_date := "2021-01-01" }

/-- A row with complete valid policy data but no person first name
(concrete test fixture): Person creation throws on it. -/
def noPersonPolicyRow : CsvRecord :=
  { goodPolicyRow with firstname := "", dob := "" }

/-- A row whose person dob does not parse while first name and email are
present (concrete test fixture). -/
def badDobRow : CsvRecord :=
  { blankRow with firstname := "A", email := "e@x.com", dob := "31-31-2020" }

/-- A row with a policy number and an unparseable policy start date
(concrete test fixture). -/
def badPolicyDateRow : CsvRecord :=
  { goodRow with policy_number := "P2", policy_start_date := "31-31-2020" }

/-- A row that only mentions a user account label and cannot resolve its
person (concrete test fixture). -/
def accountOnlyRow : CsvRecord :=
  { blankRow with account_name := "X", email := "e@x.com" }

/-- Whether an exceptional (`Except.error`) outcome occurred. -/
def exceptOk (x : Except String Nat) : Bool :=
  match x with
  | Except.ok _ => true
  | Except.error _ => false

/-- The processed count carried by a progress message (0 for the other
message kinds). -/
def progVal (m : Msg) : Nat :=
  match m with
  | Msg.progress p _ => p
  | _ => 0

/-- Terminal messages are `done` and `error`; `progress` is not. -/
def isTerminal (m : Msg) : Bool :=
  match m with
  | Msg.progress _ _ => false
  | _ => true

/-- The progress messages posted by `n` consecutive exception-free rows
when `p` rows were already processed: one message per processed count in
`p+1 … p+n` that is a multiple of 50. -/
def progressSeq (total : Nat) : Nat → Nat → List Msg
  | _, 0 => []
  | p, n + 1 =>
    (if (p + 1) % 50 = 0 then [Msg.progress (p + 1) total] else []) ++
      progressSeq total (p + 1) n

/-- The invariant the outbound message buffer satisfies throughout a run:
only progress messages, carrying strictly increasing processed counts, each
bounded by the processed counter. -/
def msgsInv (total : Nat) (st : RunState) : Prop :=
  (∀ m ∈ st.msgs, ∃ p, m = Msg.progress p total ∧ p ≤ st.processed) ∧
    List.Pairwise (fun a b => progVal a < progVal b) st.msgs

@[simp]
theorem setRef_processed (f : Family) (st : RunState) (rs : RefState) :
    (setRef f st rs).processed = st.processed := by
  cases f <;> rfl

@[simp]
theorem setRef_errors (f : Family) (st : RunState) (rs : RefState) :
    (setRef f st rs).errors = st.errors := by
  cases f <;> rfl

@[simp]
theorem setRef_errorsList (f : Family) (st : RunState) (rs : RefState) :
    (setRef f st rs).errorsList = st.errorsList := by
  cases f <;> rfl

@[simp]
theorem setRef_msgs (f : Family) (st : RunState) (rs : RefState) :
    (setRef f st rs).msgs = st.msgs := by
  cases f <;> rfl

@[simp]
theorem setRef_userCache (f : Family) (st : RunState) (rs : RefState) :
    (setRef f st rs).userCache = st.userCache := by
  cases f <;> rfl

@[simp]
theorem setRef_users (f : Family) (st : RunState) (rs : RefState) :
    (setRef f st rs).store.users = st.store.users := by
  cases f <;> rfl

@[simp]
theorem setRef_policies (f : Family) (st : RunState) (rs : RefState) :
    (setRef f st rs).store.policies = st.store.policies := by
  cases f <;> rfl

@[simp]
theorem setRef_ops (f : Family) (st : RunState) (rs : RefState) :
    (setRef f st rs).ops = rs.ops := by
  cases f <;> rfl

theorem cacheOf_setRef (f g : Family) (st : RunState) (rs : RefState) :
    cacheOf f (setRef g st rs) = if f = g then rs.cache else cacheOf f st := by
  cases f <;> cases g <;> simp [cacheOf, setRef]

@[simp]
theorem getOrCreateRef_snd (f : Family) (label : String) (st : RunState) :
    (getOrCreateRef f label st).2 = setRef f st (refResolve f label (getRef f st)).2 :=
  rfl

@[simp]
theorem getOrCreateAgent_eq (s : String) (st : RunState) :
    getOrCreateAgent s st = getOrCreateRef Family.agent s st := rfl

@[simp]
theorem getOrCreateLOB_eq (s : String) (st : RunState) :
    getOrCreateLOB s st = getOrCreateRef Family.lob s st := rfl

@[simp]
theorem getOrCreateCarrier_eq (s : String) (st : RunState) :
    getOrCreateCarrier s st = getOrCreateRef Family.carrier s st := rfl

@[simp]
theorem getOrCreateUserAccount_eq (s : String) (st : RunState) :
    getOrCreateUserAccount s st = getOrCreateRef Family.account s st := rfl

@[simp]
theorem getOrCreateUser_processed (pd : String → Option Nat) (ud : UserData)
    (st : RunState) : (getOrCreateUser pd ud st).2.processed = st.processed := rfl

@[simp]
theorem getOrCreateUser_errors (pd : String → Option Nat) (ud : UserData)
    (st : RunState) : (getOrCreateUser pd ud st).2.errors = st.errors := rfl

@[simp]
theorem getOrCreateUser_errorsList (pd : String → Option Nat) (ud : UserData)
    (st : RunState) : (getOrCreateUser pd ud st).2.errorsList = st.errorsList := rfl

@[simp]
theorem getOrCreateUser_msgs (pd : String → Option Nat) (ud : UserData)
    (st : RunState) : (getOrCreateUser pd ud st).2.msgs = st.msgs := rfl

@[simp]
theorem getOrCreateUser_policies (pd : String → Option Nat) (ud : UserData)
    (st : RunState) : (getOrCreateUser pd ud st).2.store.policies = st.store.policies := rfl

@[simp]
theorem getOrCreateUser_cacheOf (f : Family) (pd : String → Option Nat) (ud : UserData)
    (st : RunState) : cacheOf f (getOrCreateUser pd ud st).2 = cacheOf f st := by
  cases f <;> rfl

@[simp]
theorem afterCarrier_processed (r : CsvRecord) (st : RunState) :
    (afterCarrier r st).2.2.processed = st.processed := rfl

@[simp]
theorem afterCarrier_errors (r : CsvRecord) (st : RunState) :
    (afterCarrier r st).2.2.errors = st.errors := rfl

@[simp]
theorem afterCarrier_errorsList (r : CsvRecord) (st : RunState) :
    (afterCarrier r st).2.2.errorsList = st.errorsList := rfl

@[simp]
theorem afterCarrier_msgs (r : CsvRecord) (st : RunState) :
    (afterCarrier r st).2.2.msgs = st.msgs := rfl

@[simp]
theorem afterCarrier_userCache (r : CsvRecord) (st : RunState) :
    (afterCarrier r st).2.2.userCache = st.userCache := rfl

@[simp]
theorem afterCarrier_users (r : CsvRecord) (st : RunState) :
    (afterCarrier r st).2.2.store.users = st.store.users := rfl

@[simp]
theorem afterCarrier_policies (r : CsvRecord) (st : RunState) :
    (afterCarrier r st).2.2.store.policies = st.store.policies := rfl

@[simp]
theorem policyStep_processed (r : CsvRecord) (lobId carrierId : Option Nat)
    (userId : Nat) (sd ed : Option Nat) (st : RunState) :
    (policyStep r lobId carrierId userId sd ed st).processed = st.processed := rfl

@[simp]
theorem policyStep_errors (r : CsvRecord) (lobId carrierId : Option Nat)
    (userId : Nat) (sd ed : Option Nat) (st : RunState) :
    (policyStep r lobId carrierId userId sd ed st).errors = st.errors := rfl

@[simp]
theorem policyStep_errorsList (r : CsvRecord) (lobId carrierId : Option Nat)
    (userId : Nat) (sd ed : Option Nat) (st : RunState) :
    (policyStep r lobId carrierId userId sd ed st).errorsList = st.errorsList := rfl

@[simp]
theorem policyStep_msgs (r : CsvRecord) (lobId carrierId : Option Nat)
    (userId : Nat) (sd ed : Option Nat) (st : RunState) :
    (policyStep r lobId carrierId userId sd ed st).msgs = st.msgs := rfl

/-- A record body that did not throw: `processed` went up by one, the error
bookkeeping is untouched, and a progress message was appended exactly when
the new `processed` count is a multiple of 50. -/
theorem body_ok_state (pd : String → Option Nat) (total : Nat) (r : CsvRecord)
    (st : RunState) (h : (processRecordBody pd total r st).1 = none) :
    (processRecordBody pd total r st).2.processed = st.processed + 1 ∧
    (processRecordBody pd total r st).2.errors = st.errors ∧
    (processRecordBody pd total r st).2.errorsList = st.errorsList ∧
    (processRecordBody pd total r st).2.msgs =
      st.msgs ++ (if (st.processed + 1) % 50 = 0 then
        [Msg.progress (st.processed + 1) total] else []) := by
  cases hu : (getOrCreateUser pd (userDataOf r) (afterCarrier r st).2.2).1 with
  | error e =>
    simp only [processRecordBody, hu] at h
    simp at h
  | ok userId =>
    simp only [processRecordBody, hu]
    split <;> simp_all

/-- A record body that threw: the returned state is the state at the throw
point, whose counters and outbound bookkeeping are those at row entry. -/
theorem body_err_state (pd : String → Option Nat) (total : Nat) (r : CsvRecord)
    (st : RunState) (e : String) (h : (processRecordBody pd total r st).1 = some e) :
    (processRecordBody pd total r st).2.processed = st.processed ∧
    (processRecordBody pd total r st).2.errors = st.errors ∧
    (processRecordBody pd total r st).2.errorsList = st.errorsList ∧
    (processRecordBody pd total r st).2.msgs = st.msgs := by
  cases hu : (getOrCreateUser pd (userDataOf r) (afterCarrier r st).2.2).1 with
  | error e2 =>
    simp only [processRecordBody, hu]
    simp
  | ok userId =>
    simp only [processRecordBody, hu] at h
    simp at h

theorem processRow_of_ok (pd : String → Option Nat) (total i : Nat) (r : CsvRecord)
    (st : RunState) (h : (processRecordBody pd total r st).1 = none) :
    processRow pd total i r st = (processRecordBody pd total r st).2 := by
  unfold processRow
  rcases hb : processRecordBody pd total r st with ⟨x, st2⟩
  rw [hb] at h
  simp at h
  simp [h]

theorem processRow_of_err (pd : String → Option Nat) (total i : Nat) (r : CsvRecord)
    (st : RunState) (e : String) (h : (processRecordBody pd total r st).1 = some e) :
    processRow pd total i r st =
      { (processRecordBody pd total r st).2 with
        errors := st.errors + 1
        errorsList := st.errorsList ++ [⟨i, e, pnOrNA r⟩] } := by
  have hs := body_err_state pd total r st e h
  unfold processRow
  rcases hb : processRecordBody pd total r st with ⟨x, st2⟩
  rw [hb] at h hs
  simp at h hs
  subst h
  simp [hs.2.1, hs.2.2.1]

@[simp]
theorem processRowsFrom_nil (pd : String → Option Nat) (total i : Nat) (st : RunState) :
    processRowsFrom pd total [] i st = st := rfl

@[simp]
theorem processRowsFrom_cons (pd : String → Option Nat) (total i : Nat) (r : CsvRecord)
    (rest : List CsvRecord) (st : RunState) :
    processRowsFrom pd total (r :: rest) i st =
      processRowsFrom pd total rest (i + 1) (processRow pd total (i + 1) r st) := rfl

/-- The inner batch loop is the flat iteration started at the batch
offset. -/
theorem processBatchRows_eq_rows (pd : String → Option Nat) (total i0 : Nat) :
    ∀ (l : List CsvRecord) (j : Nat) (st : RunState),
      processBatchRows pd total i0 l j st = processRowsFrom pd total l (i0 + j) st := by
  intro l
  induction l with
  | nil => intro j st; rfl
  | cons r rest ih =>
    intro j st
    show processBatchRows pd total i0 rest (j + 1) (processRow pd total (i0 + j + 1) r st) = _
    rw [ih]
    have h1 : i0 + (j + 1) = i0 + j + 1 := by omega
    rw [processRowsFrom_cons, h1]

/-- Flat iteration splits along list append. -/
theorem processRowsFrom_append (pd : String → Option Nat) (total : Nat) :
    ∀ (l1 l2 : List CsvRecord) (i : Nat) (st : RunState),
      processRowsFrom pd total (l1 ++ l2) i st =
        processRowsFrom pd total l2 (i + l1.length) (processRowsFrom pd total l1 i st) := by
  intro l1
  induction l1 with
  | nil => intro l2 i st; simp
  | cons r rest ih =>
    intro l2 i st
    simp only [List.cons_append, processRowsFrom_cons, ih, List.length_cons]
    have h1 : i + 1 + rest.length = i + (rest.length + 1) := by omega
    rw [h1]

/-- With enough fuel and a positive batch size, the batched driver is the
flat one-row-at-a-time iteration. -/
theorem processBatchesAux_eq_rows (pd : String → Option Nat) (total bs : Nat)
    (hbs : 1 ≤ bs) :
    ∀ (fuel : Nat) (l : List CsvRecord), l.length ≤ fuel →
      ∀ (i0 : Nat) (st : RunState),
        processBatchesAux pd total bs fuel l i0 st = processRowsFrom pd total l i0 st := by
  intro fuel
  induction fuel with
  | zero =>
    intro l hl i0 st
    cases l with
    | nil => rfl
    | cons r rest => simp at hl
  | succ fuel ih =>
    intro l hl i0 st
    cases l with
    | nil => rfl
    | cons r rest =>
      show processBatchesAux pd total bs fuel (rest.drop (bs - 1)) (i0 + bs)
        (processBatchRows pd total i0 (r :: rest.take (bs - 1)) 0 st) = _
      rw [ih (rest.drop (bs - 1))
        (by simp only [List.length_drop]; simp at hl; omega)]
      rw [processBatchRows_eq_rows]
      have hsplit : r :: rest = (r :: rest.take (bs - 1)) ++ rest.drop (bs - 1) := by
        simp [List.take_append_drop]
      conv_rhs => rw [hsplit]
      rw [processRowsFrom_append]
      rcases le_or_lt (bs - 1) rest.length with hle | hlt
      · have hlen : (r :: rest.take (bs - 1)).length = bs := by
          simp only [List.length_cons, List.length_take]
          omega
        rw [hlen, Nat.add_zero]
      · have hdrop : rest.drop (bs - 1) = [] := List.drop_eq_nil_of_le (by omega)
        rw [hdrop, Nat.add_zero]
        simp

/-- The batched driver (any positive batch size) equals the flat
iteration. -/
theorem processBatches_eq_rows (pd : String → Option Nat) (total bs : Nat)
    (hbs : 1 ≤ bs) (l : List CsvRecord) (i0 : Nat) (st : RunState) :
    processBatches pd total bs l i0 st = processRowsFrom pd total l i0 st :=
  processBatchesAux_eq_rows pd total bs hbs l.length l (Nat.le_refl _) i0 st

/-- The final run state is the flat iteration over all records. -/
theorem runStateFrom_eq_rows (pd : String → Option Nat) (store0 : Store)
    (records : List CsvRecord) :
    runStateFrom pd store0 records =
      processRowsFrom pd records.length records 0 (initRun store0) :=
  processBatches_eq_rows pd records.length 100 (by omega) records 0 (initRun store0)

/-- Every row settles exactly one of the two counters: their sum grows by
one per row. -/
theorem processRow_sum (pd : String → Option Nat) (total i : Nat) (r : CsvRecord)
    (st : RunState) :
    (processRow pd total i r st).processed + (processRow pd total i r st).errors =
      st.processed + st.errors + 1 := by
  cases hb : (processRecordBody pd total r st).1 with
  | none =>
    have hs := body_ok_state pd total r st hb
    rw [processRow_of_ok pd total i r st hb, hs.1, hs.2.1]
    omega
  | some e =>
    have hs := body_err_state pd total r st e hb
    rw [processRow_of_err pd total i r st e hb]
    simp [hs.1]
    omega

theorem processRowsFrom_sum (pd : String → Option Nat) (total : Nat) :
    ∀ (l : List CsvRecord) (i : Nat) (st : RunState),
      (processRowsFrom pd total l i st).processed +
        (processRowsFrom pd total l i st).errors =
          st.processed + st.errors + l.length := by
  intro l
  induction l with
  | nil => intro i st; simp
  | cons r rest ih =>
    intro i st
    rw [processRowsFrom_cons, ih]
    rw [processRow_sum]
    simp only [List.length_cons]
    omega

/-- The error counter never decreases along a row. -/
theorem processRow_errors_mono (pd : String → Option Nat) (total i : Nat)
    (r : CsvRecord) (st : RunState) :
    st.errors ≤ (processRow pd total i r st).errors := by
  cases hb : (processRecordBody pd total r st).1 with
  | none =>
    have hs := body_ok_state pd total r st hb
    rw [processRow_of_ok pd total i r st hb, hs.2.1]
  | some e =>
    have hs := body_err_state pd total r st e hb
    rw [processRow_of_err pd total i r st e hb]
    simp

theorem processRowsFrom_errors_mono (pd : String → Option Nat) (total : Nat) :
    ∀ (l : List CsvRecord) (i : Nat) (st : RunState),
      st.errors ≤ (processRowsFrom pd total l i st).errors := by
  intro l
  induction l with
  | nil => intro i st; simp
  | cons r rest ih =>
    intro i st
    rw [processRowsFrom_cons]
    exact Nat.le_trans (processRow_errors_mono pd total (i + 1) r st) (ih _ _)

/-- The error list's length tracks the error counter. -/
theorem processRow_errlen (pd : String → Option Nat) (total i : Nat) (r : CsvRecord)
    (st : RunState) (h : st.errorsList.length = st.errors) :
    (processRow pd total i r st).errorsList.length = (processRow pd total i r st).errors := by
  cases hb : (processRecordBody pd total r st).1 with
  | none =>
    have hs := body_ok_state pd total r st hb
    rw [processRow_of_ok pd total i r st hb, hs.2.1, hs.2.2.1, h]
  | some e =>
    have hs := body_err_state pd total r st e hb
    rw [processRow_of_err pd total i r st e hb]
    simp [h]

theorem processRowsFrom_errlen (pd : String → Option Nat) (total : Nat) :
    ∀ (l : List CsvRecord) (i : Nat) (st : RunState),
      st.errorsList.length = st.errors →
      (processRowsFrom pd total l i st).errorsList.length =
        (processRowsFrom pd total l i st).errors := by
  intro l
  induction l with
  | nil => intro i st h; simpa using h
  | cons r rest ih =>
    intro i st h
    rw [processRowsFrom_cons]
    exact ih _ _ (processRow_errlen pd total (i + 1) r st h)

/-- One row preserves the message-buffer invariant. -/
theorem processRow_msgsInv (pd : String → Option Nat) (total i : Nat) (r : CsvRecord)
    (st : RunState) (h : msgsInv total st) : msgsInv total (processRow pd total i r st) := by
  rcases h with ⟨hmem, hpair⟩
  cases hb : (processRecordBody pd total r st).1 with
  | none =>
    have hs := body_ok_state pd total r st hb
    rw [processRow_of_ok pd total i r st hb]
    constructor
    · intro m hm
      rw [hs.2.2.2] at hm
      rcases List.mem_append.mp hm with hm1 | hm2
      · rcases hmem m hm1 with ⟨p, hp, hple⟩
        exact ⟨p, hp, by rw [hs.1]; omega⟩
      · refine ⟨st.processed + 1, ?_, by rw [hs.1]⟩
        by_cases hc : (st.processed + 1) % 50 = 0
        · simp [hc] at hm2
          simp [hm2]
        · simp [hc] at hm2
    · rw [hs.2.2.2]
      rw [List.pairwise_append]
      refine ⟨hpair, ?_, ?_⟩
      · by_cases hc : (st.processed + 1) % 50 = 0 <;> simp [hc]
      · intro a ha b hb2
        rcases hmem a ha with ⟨p, hp, hple⟩
        by_cases hc : (st.processed + 1) % 50 = 0 <;> simp [hc] at hb2
        subst hb2
        subst hp
        simp [progVal]
        omega
  | some e =>
    have hs := body_err_state pd total r st e hb
    rw [processRow_of_err pd total i r st e hb]
    constructor
    · intro m hm
      simp only [hs.2.2.2] at hm
      rcases hmem m hm with ⟨p, hp, hple⟩
      exact ⟨p, hp, by simp [hs.1]; omega⟩
    · simpa [hs.2.2.2] using hpair

theorem processRowsFrom_msgsInv (pd : String → Option Nat) (total : Nat) :
    ∀ (l : List CsvRecord) (i : Nat) (st : RunState),
      msgsInv total st → msgsInv total (processRowsFrom pd total l i st) := by
  intro l
  induction l with
  | nil => intro i st h; simpa using h
  | cons r rest ih =>
    intro i st h
    rw [processRowsFrom_cons]
    exact ih _ _ (processRow_msgsInv pd total (i + 1) r st h)

theorem progressSeq_zero (total p : Nat) : progressSeq total p 0 = [] := rfl

theorem progressSeq_succ (total p n : Nat) :
    progressSeq total p (n + 1) =
      (if (p + 1) % 50 = 0 then [Msg.progress (p + 1) total] else []) ++
        progressSeq total (p + 1) n := rfl

/-- Peeling the last row off `progressSeq`. -/
theorem progressSeq_snoc (total : Nat) :
    ∀ (n p : Nat),
      progressSeq total p (n + 1) =
        progressSeq total p n ++
          (if (p + n + 1) % 50 = 0 then [Msg.progress (p + n + 1) total] else []) := by
  intro n
  induction n with
  | zero => intro p; simp [progressSeq_succ, progressSeq_zero]
  | succ n ih =>
    intro p
    rw [progressSeq_succ, ih (p + 1), progressSeq_succ total p n]
    have h1 : p + 1 + n + 1 = p + (n + 1) + 1 := by omega
    rw [h1, List.append_assoc]

/-- Closed form of the progress cadence from a fresh counter: one message
per positive multiple of 50 up to `n`, in increasing order. -/
theorem progressSeq_closed (total : Nat) :
    ∀ n : Nat, progressSeq total 0 n =
      (List.range (n / 50)).map (fun k => Msg.progress (50 * (k + 1)) total) := by
  intro n
  induction n with
  | zero => simp [progressSeq_zero]
  | succ n ih =>
    rw [progressSeq_snoc, ih]
    by_cases hc : (0 + n + 1) % 50 = 0
    · have hd : (n + 1) / 50 = n / 50 + 1 := by omega
      have hv : 50 * (n / 50 + 1) = n + 1 := by omega
      rw [hd, List.range_succ, List.map_append]
      simp only [List.map_cons, List.map_nil, hv]
      simp only [Nat.zero_add] at hc
      simp [hc]
    · have hd : (n + 1) / 50 = n / 50 := by omega
      rw [hd]
      simp only [Nat.zero_add] at hc
      simp [hc]

/-- An exception-free stretch of rows appends exactly the progress cadence
and advances `processed` by the number of rows. -/
theorem processRowsFrom_msgs_of_no_err (pd : String → Option Nat) (total : Nat) :
    ∀ (l : List CsvRecord) (i : Nat) (st : RunState),
      (processRowsFrom pd total l i st).errors = st.errors →
      (processRowsFrom pd total l i st).msgs =
          st.msgs ++ progressSeq total st.processed l.length ∧
        (processRowsFrom pd total l i st).processed = st.processed + l.length := by
  intro l
  induction l with
  | nil => intro i st h; simp [progressSeq_zero]
  | cons r rest ih =>
    intro i st h
    rw [processRowsFrom_cons] at h ⊢
    cases hb : (processRecordBody pd total r st).1 with
    | some e =>
      exfalso
      have hrow : (processRow pd total (i + 1) r st).errors = st.errors + 1 := by
        have hs := body_err_state pd total r st e hb
        rw [processRow_of_err pd total (i + 1) r st e hb]
      have hmono := processRowsFrom_errors_mono pd total rest (i + 1)
        (processRow pd total (i + 1) r st)
      rw [hrow] at hmono
      omega
    | none =>
      have hs := body_ok_state pd total r st hb
      have hrow : processRow pd total (i + 1) r st = (processRecordBody pd total r st).2 :=
        processRow_of_ok pd total (i + 1) r st hb
      rw [hrow] at h ⊢
      have herr : (processRowsFrom pd total rest (i + 1)
          (processRecordBody pd total r st).2).errors =
          (processRecordBody pd total r st).2.errors := by
        rw [hs.2.1]; exact h
      rcases ih (i + 1) (processRecordBody pd total r st).2 herr with ⟨hm, hp⟩
      constructor
      · rw [hm, hs.2.2.2, hs.1, List.length_cons, List.append_assoc]
        rw [progressSeq_succ]
      · rw [hp, hs.1, List.length_cons]
        omega

@[simp]
theorem getOrCreateRef_fst (f : Family) (label : String) (st : RunState) :
    (getOrCreateRef f label st).1 = (refResolve f label (getRef f st)).1 := rfl

/-- A reference resolver returns null exactly for the empty label. -/
theorem refResolve_fst_none_iff (f : Family) (label : String) (rs : RefState) :
    (refResolve f label rs).1 = none ↔ label = "" := by
  unfold refResolve
  split
  · simp_all
  · split
    · simp_all
    · split <;> simp_all

theorem afterCarrier_lobId_none_iff (r : CsvRecord) (st : RunState) :
    (afterCarrier r st).1 = none ↔ r.category_name = "" :=
  refResolve_fst_none_iff Family.lob r.category_name _

theorem afterCarrier_carrierId_none_iff (r : CsvRecord) (st : RunState) :
    (afterCarrier r st).2.1 = none ↔ r.company_name = "" :=
  refResolve_fst_none_iff Family.carrier r.company_name _

/-- Full case analysis of `getOrCreateUser`: cache hit, storage reuse,
failed creation after a lookup, successful creation after a lookup, failed
creation without a lookup, successful creation without a lookup. -/
theorem userResolve_spec (pd : String → Option Nat) (ud : UserData) (us : UserResState) :
    (∃ id, mapFind us.cache (userKey ud) = some id ∧
      userResolve pd ud us = (Except.ok id, us)) ∨
    (mapFind us.cache (userKey ud) = none ∧ ud.firstname ≠ "" ∧ ud.email ≠ "" ∧
      ∃ id, userFind us.users ud.firstname ud.email = some id ∧
        userResolve pd ud us =
          (Except.ok id,
            { us with cache := (userKey ud, id) :: us.cache
                      ops := us.ops ++ [StoreOp.userLookup ud.firstname ud.email] })) ∨
    (mapFind us.cache (userKey ud) = none ∧ ud.firstname ≠ "" ∧ ud.email ≠ "" ∧
      userFind us.users ud.firstname ud.email = none ∧
      parseDateField pd ud.dob = none ∧
      userResolve pd ud us =
        (Except.error "User validation failed",
          { us with ops := us.ops ++ [StoreOp.userLookup ud.firstname ud.email] })) ∨
    (mapFind us.cache (userKey ud) = none ∧ ud.firstname ≠ "" ∧ ud.email ≠ "" ∧
      userFind us.users ud.firstname ud.email = none ∧
      parseDateField pd ud.dob ≠ none ∧
      userResolve pd ud us =
        (Except.ok us.nextId,
          ⟨(userKey ud, us.nextId) :: us.cache,
           (us.nextId, newUserDoc pd ud) :: us.users, us.nextId + 1,
           us.ops ++ [StoreOp.userLookup ud.firstname ud.email,
             StoreOp.userCreate ud.firstname]⟩)) ∨
    (mapFind us.cache (userKey ud) = none ∧ (ud.firstname = "" ∨ ud.email = "") ∧
      (ud.firstname = "" ∨ parseDateField pd ud.dob = none) ∧
      userResolve pd ud us = (Except.error "User validation failed", us)) ∨
    (mapFind us.cache (userKey ud) = none ∧ ud.firstname ≠ "" ∧ ud.email = "" ∧
      parseDateField pd ud.dob ≠ none ∧
      userResolve pd ud us =
        (Except.ok us.nextId,
          ⟨(userKey ud, us.nextId) :: us.cache,
           (us.nextId, newUserDoc pd ud) :: us.users, us.nextId + 1,
           us.ops ++ [StoreOp.userCreate ud.firstname]⟩)) := by
  rcases hc : mapFind us.cache (userKey ud) with _ | id
  · by_cases hg : ud.firstname ≠ "" ∧ ud.email ≠ ""
    · rcases hf : userFind us.users ud.firstname ud.email with _ | id
      · by_cases hv : parseDateField pd ud.dob = none
        · refine Or.inr (Or.inr (Or.inl ⟨rfl, hg.1, hg.2, rfl, hv, ?_⟩))
          simp [userResolve, hc, hg, hf, hv]
        · refine Or.inr (Or.inr (Or.inr (Or.inl ⟨rfl, hg.1, hg.2, rfl, hv, ?_⟩)))
          simp [userResolve, hc, hg, hf, hv, hg.1]
      · refine Or.inr (Or.inl ⟨rfl, hg.1, hg.2, id, rfl, ?_⟩)
        simp [userResolve, hc, hg, hf]
    · by_cases hv : ud.firstname = "" ∨ parseDateField pd ud.dob = none
      · refine Or.inr (Or.inr (Or.inr (Or.inr (Or.inl ⟨rfl, ?_, hv, ?_⟩))))
        · by_cases h1 : ud.firstname = ""
          · exact Or.inl h1
          · refine Or.inr ?_
            by_cases h2 : ud.email = ""
            · exact h2
            · exact absurd ⟨h1, h2⟩ hg
        · simp [userResolve, hc, hg, hv]
      · push_neg at hv
        have hfn : ud.firstname ≠ "" := hv.1
        have hem : ud.email = "" := by
          by_cases h2 : ud.email = ""
          · exact h2
          · exact absurd ⟨hfn, h2⟩ hg
        refine Or.inr (Or.inr (Or.inr (Or.inr (Or.inr ⟨rfl, hfn, hem, hv.2, ?_⟩))))
        simp [userResolve, hc, hfn, hem, hv.2]
  · exact Or.inl ⟨id, rfl, by simp [userResolve, hc]⟩

/-- `getOrCreateUser` succeeds exactly on a cache hit, a storage match on
(firstname, email), or a creatable user (non-empty first name and a
parseable date of birth). -/
theorem userResolve_ok_iff (pd : String → Option Nat) (ud : UserData) (us : UserResState) :
    exceptOk (userResolve pd ud us).1 = true ↔
      ((mapFind us.cache (userKey ud)).isSome = true ∨
        (ud.firstname ≠ "" ∧ ud.email ≠ "" ∧
          (userFind us.users ud.firstname ud.email).isSome = true) ∨
        (ud.firstname ≠ "" ∧ (parseDateField pd ud.dob).isSome = true)) := by
  rcases userResolve_spec pd ud us with ⟨id, hc, he⟩ | ⟨hc, h1, h2, id, hf, he⟩ |
    ⟨hc, h1, h2, hf, hv, he⟩ | ⟨hc, h1, h2, hf, hv, he⟩ | ⟨hc, hg, hv, he⟩ |
    ⟨hc, h1, h2, hv, he⟩
  · rw [he]
    simp [exceptOk, hc]
  · rw [he]
    simp only [exceptOk, hc, hf]
    simp [h1, h2]
  · rw [he]
    simp [exceptOk, hc, hf, hv, h1, h2]
  · rw [he]
    have hs := Option.ne_none_iff_isSome.mp hv
    simp only [exceptOk, hc]
    simp [h1, hs]
  · rw [he]
    simp only [exceptOk, hc]
    simp only [Option.isSome_none, Bool.false_eq_true, false_or, false_iff]
    rintro (⟨hfn, hem, _⟩ | ⟨hfn, hdob⟩)
    · rcases hg with hg | hg
      · exact hfn hg
      · exact hem hg
    · rcases hv with hv | hv
      · exact hfn hv
      · rw [hv] at hdob
        simp at hdob
  · rw [he]
    have hs := Option.ne_none_iff_isSome.mp hv
    simp only [exceptOk, hc]
    simp [h1, hs]

/-- The only exception value the row body can carry is the user validation
failure. -/
theorem userResolve_err_val (pd : String → Option Nat) (ud : UserData)
    (us : UserResState) (e : String)
    (h : (userResolve pd ud us).1 = Except.error e) : e = "User validation failed" := by
  rcases userResolve_spec pd ud us with ⟨id, hc, he⟩ | ⟨hc, h1, h2, id, hf, he⟩ |
    ⟨hc, h1, h2, hf, hv, he⟩ | ⟨hc, h1, h2, hf, hv, he⟩ | ⟨hc, hg, hv, he⟩ |
    ⟨hc, h1, h2, hv, he⟩ <;> rw [he] at h <;> simp at h
  all_goals exact h.symm

@[simp]
theorem getOrCreateUser_fst (pd : String → Option Nat) (ud : UserData) (st : RunState) :
    (getOrCreateUser pd ud st).1 =
      (userResolve pd ud ⟨st.userCache, st.store.users, st.store.nextId, st.ops⟩).1 := rfl

@[simp]
theorem getOrCreateUser_users (pd : String → Option Nat) (ud : UserData) (st : RunState) :
    (getOrCreateUser pd ud st).2.store.users =
      (userResolve pd ud ⟨st.userCache, st.store.users, st.store.nextId, st.ops⟩).2.users := rfl

@[simp]
theorem getOrCreateUser_ops (pd : String → Option Nat) (ud : UserData) (st : RunState) :
    (getOrCreateUser pd ud st).2.ops =
      (userResolve pd ud ⟨st.userCache, st.store.users, st.store.nextId, st.ops⟩).2.ops := rfl

@[simp]
theorem getOrCreateUser_userCache (pd : String → Option Nat) (ud : UserData) (st : RunState) :
    (getOrCreateUser pd ud st).2.userCache =
      (userResolve pd ud ⟨st.userCache, st.store.users, st.store.nextId, st.ops⟩).2.cache := rfl

theorem userStepOf_fst (pd : String → Option Nat) (r : CsvRecord) (st : RunState) :
    (userStepOf pd r st).1 =
      (userResolve pd (userDataOf r)
        ⟨st.userCache, st.store.users, (afterCarrier r st).2.2.store.nextId,
         (afterCarrier r st).2.2.ops⟩).1 := rfl

/-- Person resolution succeeds for a row exactly on a user-cache hit, a
stored match on (firstname, email), or a creatable user. -/
theorem userStepOf_ok_iff (pd : String → Option Nat) (r : CsvRecord) (st : RunState) :
    exceptOk (userStepOf pd r st).1 = true ↔
      ((mapFind st.userCache (userKey (userDataOf r))).isSome = true ∨
        (r.firstname ≠ "" ∧ r.email ≠ "" ∧
          (userFind st.store.users r.firstname r.email).isSome = true) ∨
        (r.firstname ≠ "" ∧ (parseDateField pd r.dob).isSome = true)) := by
  rw [userStepOf_fst]
  have h := userResolve_ok_iff pd (userDataOf r)
    ⟨st.userCache, st.store.users, (afterCarrier r st).2.2.store.nextId,
     (afterCarrier r st).2.2.ops⟩
  simpa [userDataOf] using h

/-- The row body throws exactly when Person resolution throws. -/
theorem body_fst_none_iff (pd : String → Option Nat) (total : Nat) (r : CsvRecord)
    (st : RunState) :
    (processRecordBody pd total r st).1 = none ↔
      exceptOk (userStepOf pd r st).1 = true := by
  have hstep : (userStepOf pd r st).1 =
      (getOrCreateUser pd (userDataOf r) (afterCarrier r st).2.2).1 := rfl
  rw [hstep]
  cases hu : (getOrCreateUser pd (userDataOf r) (afterCarrier r st).2.2).1 with
  | error e =>
    simp only [processRecordBody, hu]
    simp [exceptOk]
  | ok id =>
    simp only [processRecordBody, hu]
    simp [exceptOk]

/-- The row body's exception is exactly the Person-resolution
exception. -/
theorem body_fst_eq (pd : String → Option Nat) (total : Nat) (r : CsvRecord)
    (st : RunState) :
    (processRecordBody pd total r st).1 =
      (match (userStepOf pd r st).1 with
       | Except.error e => some e
       | Except.ok _ => none) := by
  have hstep : (userStepOf pd r st).1 =
      (getOrCreateUser pd (userDataOf r) (afterCarrier r st).2.2).1 := rfl
  rw [hstep]
  cases hu : (getOrCreateUser pd (userDataOf r) (afterCarrier r st).2.2).1 with
  | error e =>
    simp only [processRecordBody, hu]
  | ok id =>
    simp only [processRecordBody, hu]

/-- The message carried by a throwing row is the user validation
failure. -/
theorem body_fst_some_val (pd : String → Option Nat) (total : Nat) (r : CsvRecord)
    (st : RunState) (e : String) (h : (processRecordBody pd total r st).1 = some e) :
    e = "User validation failed" := by
  rw [body_fst_eq] at h
  cases hu : (userStepOf pd r st).1 with
  | ok id => rw [hu] at h; simp at h
  | error e2 =>
    rw [hu] at h
    simp at h
    subst h
    exact userResolve_err_val pd (userDataOf r) _ e2 (by rw [← userStepOf_fst]; exact hu)

@[simp]
theorem policyStep_policies (r : CsvRecord) (a b : Option Nat) (uid : Nat)
    (sd ed : Option Nat) (st : RunState) :
    (policyStep r a b uid sd ed st).store.policies =
      policiesAfter r a b uid sd ed st.store.policies := rfl

/-- The stored policies after a row body: unchanged on a throw, otherwise
governed by the policy section over the row-entry policies. -/
theorem body_policies (pd : String → Option Nat) (total : Nat) (r : CsvRecord)
    (st : RunState) :
    (processRecordBody pd total r st).2.store.policies =
      (match (userStepOf pd r st).1 with
       | Except.error _ => st.store.policies
       | Except.ok uid =>
         policiesAfter r (afterCarrier r st).1 (afterCarrier r st).2.1 uid
           (parseDateField pd r.policy_start_date)
           (parseDateField pd r.policy_end_date) st.store.policies) := by
  have hstep : (userStepOf pd r st).1 =
      (getOrCreateUser pd (userDataOf r) (afterCarrier r st).2.2).1 := rfl
  rw [hstep]
  cases hu : (getOrCreateUser pd (userDataOf r) (afterCarrier r st).2.2).1 with
  | error e =>
    simp only [processRecordBody, hu]
    simp
  | ok uid =>
    simp only [processRecordBody, hu]
    split <;> simp

/-- A row never removes or edits stored policies other than through the
policy section. -/
theorem processRow_policies (pd : String → Option Nat) (total i : Nat) (r : CsvRecord)
    (st : RunState) :
    (processRow pd total i r st).store.policies =
      (processRecordBody pd total r st).2.store.policies := by
  cases hb : (processRecordBody pd total r st).1 with
  | none => rw [processRow_of_ok pd total i r st hb]
  | some e => rw [processRow_of_err pd total i r st e hb]

/-- The policy section leaves the collection alone when any guard input is
missing or the number is already present. -/
theorem policiesAfter_self (r : CsvRecord) (lobId carrierId : Option Nat) (uid : Nat)
    (sd ed : Option Nat) (ps : List PolicyDoc)
    (h : lobId = none ∨ carrierId = none ∨ sd = none ∨ ed = none ∨
      r.policy_number = "" ∨ policyFind ps r.policy_number ≠ none) :
    policiesAfter r lobId carrierId uid sd ed ps = ps := by
  rcases lobId with _ | lid <;> rcases carrierId with _ | cid <;>
    rcases sd with _ | sd0 <;> rcases ed with _ | ed0 <;>
    simp only [policiesAfter]
  simp only [reduceCtorEq, false_or] at h
  rcases h with h | h
  · simp [h]
  · rcases hf : policyFind ps r.policy_number with _ | p
    · exact absurd hf h
    · split <;> simp [hf]

/-- The policy section inserts exactly one new policy when every guard
input is present and the number is new. -/
theorem policiesAfter_cons (r : CsvRecord) (lid cid uid sd0 ed0 : Nat)
    (ps : List PolicyDoc) (hpn : r.policy_number ≠ "")
    (hf : policyFind ps r.policy_number = none) :
    policiesAfter r (some lid) (some cid) uid (some sd0) (some ed0) ps =
      ⟨r.policy_number, sd0, ed0, lid, cid, uid⟩ :: ps := by
  simp [policiesAfter, hpn, hf]

@[simp]
theorem countOp_nil (o : StoreOp) : countOp o [] = 0 := rfl

@[simp]
theorem countOp_append (o : StoreOp) (l1 l2 : List StoreOp) :
    countOp o (l1 ++ l2) = countOp o l1 + countOp o l2 := by
  simp [countOp, List.filter_append]

@[simp]
theorem countOp_cons (o x : StoreOp) (l : List StoreOp) :
    countOp o (x :: l) = (if x = o then 1 else 0) + countOp o l := by
  simp only [countOp, List.filter_cons]
  split <;> simp_all
  omega

@[simp]
theorem mapFind_nil (k : String) : mapFind [] k = none := rfl

@[simp]
theorem mapFind_cons (k2 : String) (v : Nat) (m : List (String × Nat)) (k : String) :
    mapFind ((k2, v) :: m) k = if k2 = k then some v else mapFind m k := rfl

@[simp]
theorem getRef_cache (f : Family) (st : RunState) :
    (getRef f st).cache = cacheOf f st := by
  cases f <;> rfl

@[simp]
theorem getRef_ops (f : Family) (st : RunState) : (getRef f st).ops = st.ops := by
  cases f <;> rfl

/-- Full case analysis of a reference resolver: empty label, cache hit,
storage reuse, creation. -/
theorem refResolve_spec (f : Family) (label : String) (rs : RefState) :
    (label = "" ∧ refResolve f label rs = (none, rs)) ∨
    (label ≠ "" ∧ ∃ id, mapFind rs.cache label = some id ∧
      refResolve f label rs = (some id, rs)) ∨
    (label ≠ "" ∧ mapFind rs.cache label = none ∧ ∃ id,
      collFind rs.coll label = some id ∧
      refResolve f label rs =
        (some id, { rs with cache := (label, id) :: rs.cache
                            ops := rs.ops ++ [StoreOp.lookup f label] })) ∨
    (label ≠ "" ∧ mapFind rs.cache label = none ∧ collFind rs.coll label = none ∧
      refResolve f label rs =
        (some rs.nextId,
          ⟨(label, rs.nextId) :: rs.cache, (rs.nextId, label) :: rs.coll,
           rs.nextId + 1,
           rs.ops ++ [StoreOp.lookup f label, StoreOp.create f label]⟩)) := by
  by_cases hl : label = ""
  · exact Or.inl ⟨hl, by simp [refResolve, hl]⟩
  · rcases hc : mapFind rs.cache label with _ | id
    · rcases hf : collFind rs.coll label with _ | id
      · exact Or.inr (Or.inr (Or.inr ⟨hl, rfl, rfl, by simp [refResolve, hl, hc, hf]⟩))
      · exact Or.inr (Or.inr (Or.inl ⟨hl, rfl, id, rfl, by simp [refResolve, hl, hc, hf]⟩))
    · exact Or.inr (Or.inl ⟨hl, id, rfl, by simp [refResolve, hl, hc]⟩)

/-- How one resolver call changes cache membership: the call's own
non-empty label becomes cached, every other key is untouched. -/
theorem refResolve_cache_mem (f : Family) (label : String) (rs : RefState)
    (l : String) (hl : l ≠ "") :
    ((mapFind (refResolve f label rs).2.cache l).isSome = true ↔
      (label = l ∨ (mapFind rs.cache l).isSome = true)) := by
  rcases refResolve_spec f label rs with ⟨he, hr⟩ | ⟨he, id, hc, hr⟩ |
    ⟨he, hc, id, hf, hr⟩ | ⟨he, hc, hf, hr⟩
  · rw [hr]
    constructor
    · exact fun h => Or.inr h
    · rintro (h | h)
      · exact absurd (h ▸ he) hl
      · exact h
  · rw [hr]
    constructor
    · exact fun h => Or.inr h
    · rintro (h | h)
      · subst h
        simp [hc]
      · exact h
  · rw [hr]
    simp only [mapFind_cons]
    by_cases hll : label = l <;> simp [hll]
  · rw [hr]
    simp only [mapFind_cons]
    by_cases hll : label = l <;> simp [hll]

theorem setRef_getRef (f : Family) (st : RunState) : setRef f st (getRef f st) = st := by
  cases f <;> rfl

/-- `refInv` only depends on the trace and the four caches. -/
theorem refInv_congr (st1 st2 : RunState) (hops : st2.ops = st1.ops)
    (hc : ∀ f, cacheOf f st2 = cacheOf f st1) (h : refInv st1) : refInv st2 := by
  intro f l hl
  rw [hops, hc f]
  exact h f l hl

/-- Extending the trace with the lookup (and possibly create) of a fresh
non-empty label, while caching that label, preserves the invariant. -/
theorem refInv_extend (st st2 : RunState) (g : Family) (s : String) (idv : Nat)
    (h : refInv st) (_hs : s ≠ "") (hmiss : mapFind (cacheOf g st) s = none)
    (hops : st2.ops = st.ops ++ [StoreOp.lookup g s] ∨
      st2.ops = st.ops ++ [StoreOp.lookup g s, StoreOp.create g s])
    (hcg : cacheOf g st2 = (s, idv) :: cacheOf g st)
    (hco : ∀ f, f ≠ g → cacheOf f st2 = cacheOf f st) :
    refInv st2 := by
  intro f l hl
  obtain ⟨h1, h2⟩ := h f l hl
  by_cases hfg : f = g
  · subst hfg
    by_cases hsl : s = l
    · subst hsl
      rw [hmiss] at h1
      simp only [Option.isSome_none, Bool.false_eq_true, if_false] at h1
      have hc2 : countOp (StoreOp.create f s) st.ops = 0 := by omega
      rcases hops with ho | ho <;> rw [ho, hcg] <;> constructor <;>
        simp [h1, hc2, StoreOp.lookup.injEq, StoreOp.create.injEq]
    · refine ⟨?_, ?_⟩
      · rcases hops with ho | ho <;> rw [ho, hcg] <;>
          simp [hsl, h1, StoreOp.lookup.injEq]
      · rcases hops with ho | ho <;> rw [ho] <;>
          simpa [hsl, StoreOp.lookup.injEq, StoreOp.create.injEq] using h2
  · have hgf : g ≠ f := fun hx => hfg hx.symm
    refine ⟨?_, ?_⟩
    · rcases hops with ho | ho <;> rw [ho, hco f hfg] <;>
        simp [hgf, h1, StoreOp.lookup.injEq]
    · rcases hops with ho | ho <;> rw [ho] <;>
        simpa [hgf, StoreOp.lookup.injEq, StoreOp.create.injEq] using h2

/-- One reference resolver call preserves the cache-correctness
invariant. -/
theorem refInv_getOrCreateRef (g : Family) (s : String) (st : RunState)
    (h : refInv st) : refInv (getOrCreateRef g s st).2 := by
  rcases refResolve_spec g s (getRef g st) with ⟨he, hr⟩ | ⟨he, id, hc, hr⟩ |
    ⟨he, hc, id, hf, hr⟩ | ⟨he, hc, hf, hr⟩
  · have hst : (getOrCreateRef g s st).2 = st := by
      rw [getOrCreateRef_snd, hr]
      exact setRef_getRef g st
    rw [hst]
    exact h
  · have hst : (getOrCreateRef g s st).2 = st := by
      rw [getOrCreateRef_snd, hr]
      exact setRef_getRef g st
    rw [hst]
    exact h
  · rw [getRef_cache] at hc
    refine refInv_extend st _ g s id h he hc (Or.inl ?_) ?_ ?_
    · rw [getOrCreateRef_snd, setRef_ops, hr]
      simp
    · rw [getOrCreateRef_snd, cacheOf_setRef, hr]
      simp
    · intro f hfg
      rw [getOrCreateRef_snd, cacheOf_setRef]
      simp [hfg]
  · rw [getRef_cache] at hc
    refine refInv_extend st _ g s (getRef g st).nextId h he hc (Or.inr ?_) ?_ ?_
    · rw [getOrCreateRef_snd, setRef_ops, hr]
      simp
    · rw [getOrCreateRef_snd, cacheOf_setRef, hr]
      simp
    · intro f hfg
      rw [getOrCreateRef_snd, cacheOf_setRef]
      simp [hfg]

/-- The ops appended by a user-resolution call contain no reference lookup
or create. -/
theorem userResolve_ops_delta (pd : String → Option Nat) (ud : UserData)
    (us : UserResState) :
    ∃ delta, (userResolve pd ud us).2.ops = us.ops ++ delta ∧
      ∀ (f : Family) (l : String),
        countOp (StoreOp.lookup f l) delta = 0 ∧
        countOp (StoreOp.create f l) delta = 0 := by
  rcases userResolve_spec pd ud us with ⟨id, hc, he⟩ | ⟨hc, h1, h2, id, hf, he⟩ |
    ⟨hc, h1, h2, hf, hv, he⟩ | ⟨hc, h1, h2, hf, hv, he⟩ | ⟨hc, hg, hv, he⟩ |
    ⟨hc, h1, h2, hv, he⟩
  · exact ⟨[], by rw [he]; simp, by simp⟩
  · exact ⟨[StoreOp.userLookup ud.firstname ud.email], by rw [he], by simp⟩
  · exact ⟨[StoreOp.userLookup ud.firstname ud.email], by rw [he], by simp⟩
  · exact ⟨[StoreOp.userLookup ud.firstname ud.email, StoreOp.userCreate ud.firstname],
      by rw [he], by simp⟩
  · exact ⟨[], by rw [he]; simp, by simp⟩
  · exact ⟨[StoreOp.userCreate ud.firstname], by rw [he], by simp⟩

theorem refInv_getOrCreateUser (pd : String → Option Nat) (ud : UserData)
    (st : RunState) (h : refInv st) : refInv (getOrCreateUser pd ud st).2 := by
  obtain ⟨delta, hops, hd⟩ := userResolve_ops_delta pd ud
    ⟨st.userCache, st.store.users, st.store.nextId, st.ops⟩
  intro f l hl
  obtain ⟨h1, h2⟩ := h f l hl
  rw [getOrCreateUser_cacheOf, getOrCreateUser_ops, hops, countOp_append, countOp_append]
  obtain ⟨hd1, hd2⟩ := hd f l
  rw [hd1, hd2]
  exact ⟨by simpa using h1, by simpa using h2⟩

@[simp]
theorem policyStep_ops (r : CsvRecord) (a b : Option Nat) (uid : Nat)
    (sd ed : Option Nat) (st : RunState) :
    (policyStep r a b uid sd ed st).ops = st.ops := rfl

@[simp]
theorem policyStep_cacheOf (f : Family) (r : CsvRecord) (a b : Option Nat) (uid : Nat)
    (sd ed : Option Nat) (st : RunState) :
    cacheOf f (policyStep r a b uid sd ed st) = cacheOf f st := by
  cases f <;> rfl

theorem afterCarrier_state_eq (r : CsvRecord) (st : RunState) :
    (afterCarrier r st).2.2 =
      (getOrCreateRef Family.carrier r.company_name
        (getOrCreateRef Family.lob r.category_name
          (getOrCreateRef Family.agent r.agent st).2).2).2 := rfl

theorem refInv_afterCarrier (r : CsvRecord) (st : RunState) (h : refInv st) :
    refInv (afterCarrier r st).2.2 := by
  rw [afterCarrier_state_eq]
  exact refInv_getOrCreateRef _ _ _ (refInv_getOrCreateRef _ _ _ (refInv_getOrCreateRef _ _ _ h))

/-- The whole row body preserves the cache-correctness invariant. -/
theorem refInv_body (pd : String → Option Nat) (total : Nat) (r : CsvRecord)
    (st : RunState) (h : refInv st) : refInv (processRecordBody pd total r st).2 := by
  have hac := refInv_afterCarrier r st h
  have hu2 : refInv (getOrCreateUser pd (userDataOf r) (afterCarrier r st).2.2).2 :=
    refInv_getOrCreateUser pd (userDataOf r) _ hac
  cases hu : (getOrCreateUser pd (userDataOf r) (afterCarrier r st).2.2).1 with
  | error e =>
    simp only [processRecordBody, hu]
    exact hu2
  | ok uid =>
    simp only [processRecordBody, hu]
    have hacc : refInv (getOrCreateRef Family.account r.account_name
        (getOrCreateUser pd (userDataOf r) (afterCarrier r st).2.2).2).2 :=
      refInv_getOrCreateRef _ _ _ hu2
    split
    · refine refInv_congr _ _ ?_ ?_ hacc
      · simp
      · intro f
        cases f <;> rfl
    · refine refInv_congr _ _ ?_ ?_ hacc
      · simp
      · intro f
        cases f <;> rfl

theorem refInv_processRow (pd : String → Option Nat) (total i : Nat) (r : CsvRecord)
    (st : RunState) (h : refInv st) : refInv (processRow pd total i r st) := by
  have hb := refInv_body pd total r st h
  cases hx : (processRecordBody pd total r st).1 with
  | none => rw [processRow_of_ok pd total i r st hx]; exact hb
  | some e =>
    rw [processRow_of_err pd total i r st e hx]
    refine refInv_congr _ _ rfl ?_ hb
    intro f
    cases f <;> rfl

theorem refInv_processRowsFrom (pd : String → Option Nat) (total : Nat) :
    ∀ (l : List CsvRecord) (i : Nat) (st : RunState),
      refInv st → refInv (processRowsFrom pd total l i st) := by
  intro l
  induction l with
  | nil => intro i st h; simpa using h
  | cons r rest ih =>
    intro i st h
    rw [processRowsFrom_cons]
    exact ih _ _ (refInv_processRow pd total (i + 1) r st h)

theorem refInv_initRun (store0 : Store) : refInv (initRun store0) := by
  intro f l hl
  constructor
  · cases f <;> simp [initRun, cacheOf, countOp]
  · simp [initRun, countOp]

/-- Cache membership after one reference resolver call. -/
theorem getOrCreateRef_cache_mem (g : Family) (s : String) (st : RunState)
    (f : Family) (l : String) (hl : l ≠ "") :
    ((mapFind (cacheOf f (getOrCreateRef g s st).2) l).isSome = true ↔
      ((f = g ∧ s = l) ∨ (mapFind (cacheOf f st) l).isSome = true)) := by
  rw [getOrCreateRef_snd, cacheOf_setRef]
  by_cases hfg : f = g
  · subst hfg
    have hm := refResolve_cache_mem f s (getRef f st) l hl
    rw [getRef_cache] at hm
    simp [hm]
  · simp [hfg]

/-- Cache membership for the agent/LOB/carrier families after the three
leading resolver calls of a row. -/
theorem afterCarrier_cache_mem (r : CsvRecord) (st : RunState) (f : Family)
    (hf : f ≠ Family.account) (l : String) (hl : l ≠ "") :
    ((mapFind (cacheOf f (afterCarrier r st).2.2) l).isSome = true ↔
      (labelOf f r = l ∨ (mapFind (cacheOf f st) l).isSome = true)) := by
  rw [afterCarrier_state_eq]
  rw [getOrCreateRef_cache_mem Family.carrier r.company_name _ f l hl]
  rw [getOrCreateRef_cache_mem Family.lob r.category_name _ f l hl]
  rw [getOrCreateRef_cache_mem Family.agent r.agent st f l hl]
  cases f with
  | agent => simp [labelOf]
  | lob => simp [labelOf]
  | carrier => simp [labelOf]
  | account => exact absurd rfl hf

theorem processRow_cacheOf (pd : String → Option Nat) (total i : Nat) (r : CsvRecord)
    (st : RunState) (f : Family) :
    cacheOf f (processRow pd total i r st) =
      cacheOf f (processRecordBody pd total r st).2 := by
  cases hx : (processRecordBody pd total r st).1 with
  | none => rw [processRow_of_ok pd total i r st hx]
  | some e =>
    rw [processRow_of_err pd total i r st e hx]
    cases f <;> rfl

/-- Cache membership for the agent/LOB/carrier families after a whole row,
whether or not the row threw: all three resolver calls precede the only
throwing operation, and nothing after them touches those three caches. -/
theorem processRow_cache_mem (pd : String → Option Nat) (total i : Nat)
    (r : CsvRecord) (st : RunState) (f : Family) (hf : f ≠ Family.account)
    (l : String) (hl : l ≠ "") :
    ((mapFind (cacheOf f (processRow pd total i r st)) l).isSome = true ↔
      (labelOf f r = l ∨ (mapFind (cacheOf f st) l).isSome = true)) := by
  rw [processRow_cacheOf]
  have hbody : cacheOf f (processRecordBody pd total r st).2 =
      cacheOf f (afterCarrier r st).2.2 := by
    cases hu : (getOrCreateUser pd (userDataOf r) (afterCarrier r st).2.2).1 with
    | error e =>
      simp only [processRecordBody, hu]
      cases f <;> rfl
    | ok uid =>
      simp only [processRecordBody, hu]
      split <;> cases f <;> first | rfl | exact absurd rfl hf
  rw [hbody]
  exact afterCarrier_cache_mem r st f hf l hl

/-- Run-level cache membership for the agent/LOB/carrier families. -/
theorem processRowsFrom_cache_mem (pd : String → Option Nat) (total : Nat)
    (f : Family) (hf : f ≠ Family.account) :
    ∀ (recs : List CsvRecord) (i : Nat) (st : RunState) (l : String), l ≠ "" →
      ((mapFind (cacheOf f (processRowsFrom pd total recs i st)) l).isSome = true ↔
        ((recs.any fun r2 => labelOf f r2 == l) = true ∨
          (mapFind (cacheOf f st) l).isSome = true)) := by
  intro recs
  induction recs with
  | nil => intro i st l hl; simp
  | cons r rest ih =>
    intro i st l hl
    rw [processRowsFrom_cons, ih (i + 1) (processRow pd total (i + 1) r st) l hl]
    rw [processRow_cache_mem pd total (i + 1) r st f hf l hl]
    simp only [List.any_cons, Bool.or_eq_true, beq_iff_eq]
    tauto

/-- The final state of every run satisfies the cache-correctness
invariant. -/
theorem runStateFrom_refInv (pd : String → Option Nat) (store0 : Store)
    (records : List CsvRecord) : refInv (runStateFrom pd store0 records) := by
  rw [runStateFrom_eq_rows]
  exact refInv_processRowsFrom pd records.length records 0 (initRun store0)
    (refInv_initRun store0)

/-- Over a whole run from empty caches, an agent/LOB/carrier label is
cached exactly when some record mentions it. -/
theorem runStateFrom_cache_mem (pd : String → Option Nat) (store0 : Store)
    (records : List CsvRecord) (f : Family) (hf : f ≠ Family.account)
    (l : String) (hl : l ≠ "") :
    ((mapFind (cacheOf f (runStateFrom pd store0 records)) l).isSome = true ↔
      (records.any fun r2 => labelOf f r2 == l) = true) := by
  rw [runStateFrom_eq_rows]
  rw [processRowsFrom_cache_mem pd records.length f hf records 0 (initRun store0) l hl]
  have hbase : (mapFind (cacheOf f (initRun store0)) l).isSome = true ↔ False := by
    cases f <;> simp [initRun, cacheOf]
  rw [hbase]
  tauto

/-- C4: a row whose resolution or persistence throws records exactly one
error entry {1-based row index, error message, policy number or "N/A"},
increments the error counter by one, leaves `processed` untouched, and the
driver continues with the next row — the exception never aborts the batch
or the run. -/
theorem c4_row_exception_contained (pd : String → Option Nat) (total i : Nat)
    (r : CsvRecord) (rest : List CsvRecord) (st : RunState) (e : String)
    (h : (processRecordBody pd total r st).1 = some e) :
    processRow pd total (i + 1) r st =
      { (processRecordBody pd total r st).2 with
        errors := st.errors + 1
        errorsList := st.errorsList ++ [⟨i + 1, e, pnOrNA r⟩] } ∧
    (processRow pd total (i + 1) r st).errors = st.errors + 1 ∧
    (processRow pd total (i + 1) r st).errorsList =
      st.errorsList ++ [⟨i + 1, e, pnOrNA r⟩] ∧
    (processRow pd total (i + 1) r st).processed = st.processed ∧
    processRowsFrom pd total (r :: rest) i st =
      processRowsFrom pd total rest (i + 1) (processRow pd total (i + 1) r st) := by
  have hs := body_err_state pd total r st e h
  have hrw := processRow_of_err pd total (i + 1) r st e h
  refine ⟨hrw, ?_, ?_, ?_, rfl⟩
  · rw [hrw]
  · rw [hrw]
  · rw [hrw]
    exact hs.1

/-- Witness for C4: a row with every field empty throws the user
validation error, and the engine records exactly the expected entry and
continues. -/
theorem c4_row_exception_contained_witness :
    (processRecordBody pdNone 1 blankRow (initRun emptyStore)).1 =
      some "User validation failed" ∧
    (processRow pdNone 1 1 blankRow (initRun emptyStore)).errors = 1 ∧
    (processRow pdNone 1 1 blankRow (initRun emptyStore)).errorsList =
      [⟨1, "User validation failed", "N/A"⟩] := by
  have h : (processRecordBody pdNone 1 blankRow (initRun emptyStore)).1 =
      some "User validation failed" := by decide
  have hc := c4_row_exception_contained pdNone 1 0 blankRow [] (initRun emptyStore)
    "User validation failed" h
  refine ⟨h, ?_, ?_⟩
  · rw [hc.2.1]
    rfl
  · rw [hc.2.2.1]
    rfl

/-- C5: the `done` message always carries the full error counter while its
`errorsList` is the first min(errors, 10) recorded entries in order; in
particular a payload producing 15 row-level exceptions reports errors = 15
with an errorsList of length 10. -/
theorem c5_error_cap (pd : String → Option Nat) (store0 : Store)
    (records : List CsvRecord) :
    workerMsgs pd store0 records =
      (runStateFrom pd store0 records).msgs ++
        [Msg.done true (runStateFrom pd store0 records).processed
          (runStateFrom pd store0 records).errors records.length
          ((runStateFrom pd store0 records).errorsList.take 10)] ∧
    (runStateFrom pd store0 records).errorsList.length =
      (runStateFrom pd store0 records).errors ∧
    ((runStateFrom pd store0 records).errorsList.take 10).length =
      min (runStateFrom pd store0 records).errors 10 ∧
    (runStateFrom pdNone emptyStore (List.replicate 15 blankRow)).errors = 15 ∧
    ((runStateFrom pdNone emptyStore
      (List.replicate 15 blankRow)).errorsList.take 10).length = 10 := by
  have hlen : (runStateFrom pd store0 records).errorsList.length =
      (runStateFrom pd store0 records).errors := by
    rw [runStateFrom_eq_rows]
    exact processRowsFrom_errlen pd records.length records 0 (initRun store0) rfl
  refine ⟨rfl, hlen, ?_, by decide, by decide⟩
  rw [List.length_take, hlen, Nat.min_comm]

/-- C7: every run posts exactly one terminal message (`done` after
consuming all rows, or `error` from the outer catch), never both and never
zero, and every `progress` message precedes it. -/
theorem c7_single_terminal (connect : Except String Unit)
    (parsed : Except String (List CsvRecord)) (pd : String → Option Nat)
    (store0 : Store) :
    ∃ pre t, runWorker connect parsed pd store0 = pre ++ [t] ∧
      isTerminal t = true ∧ (pre.all fun m => !(isTerminal m)) = true := by
  cases connect with
  | error e => exact ⟨[], Msg.error e, rfl, rfl, rfl⟩
  | ok u =>
    cases parsed with
    | error e => exact ⟨[], Msg.error e, rfl, rfl, rfl⟩
    | ok records =>
      refine ⟨(runStateFrom pd store0 records).msgs,
        doneMsg records.length (runStateFrom pd store0 records), rfl, rfl, ?_⟩
      have hinv : msgsInv records.length (runStateFrom pd store0 records) := by
        rw [runStateFrom_eq_rows]
        refine processRowsFrom_msgsInv pd records.length records 0 (initRun store0) ?_
        constructor
        · intro m hm
          simp [initRun] at hm
        · simp [initRun]
      rw [List.all_eq_true]
      intro m hm
      rcases hinv.1 m hm with ⟨pval, hp, _⟩
      rw [hp]
      rfl

/-- C9: processing in fixed-size batches is behaviourally identical to the
flat one-row-at-a-time iteration in input order, for every positive batch
size — so the batch size changes no storage effect, counter or message. -/
theorem c9_batching_refines_flat (pd : String → Option Nat) (store0 : Store)
    (records : List CsvRecord) (bs : Nat) (h : 1 ≤ bs) :
    processBatches pd records.length bs records 0 (initRun store0) =
      processRowsFrom pd records.length records 0 (initRun store0) ∧
    runStateFrom pd store0 records =
      processRowsFrom pd records.length records 0 (initRun store0) := by
  exact ⟨processBatches_eq_rows pd records.length bs h records 0 (initRun store0),
    runStateFrom_eq_rows pd store0 records⟩

/-- Witness for C9 at batch size 3 over a concrete two-row payload. -/
theorem c9_batching_refines_flat_witness :
    1 ≤ 3 ∧
    processBatches pdStd 2 3 [goodRow, blankRow] 0 (initRun emptyStore) =
      processRowsFrom pdStd 2 [goodRow, blankRow] 0 (initRun emptyStore) := by
  exact ⟨by decide,
    (c9_batching_refines_flat pdStd emptyStore [goodRow, blankRow] 3 (by decide)).1⟩

/-- C10: in every run each parsed record settles exactly one of the two
counters, so processed + errors equals the number of parsed records, and
the progress messages carry strictly increasing counts never exceeding the
total. -/
theorem c10_counter_partition (pd : String → Option Nat) (store0 : Store)
    (records : List CsvRecord) :
    (runStateFrom pd store0 records).processed +
      (runStateFrom pd store0 records).errors = records.length ∧
    workerMsgs pd store0 records =
      (runStateFrom pd store0 records).msgs ++
        [Msg.done true (runStateFrom pd store0 records).processed
          (runStateFrom pd store0 records).errors records.length
          ((runStateFrom pd store0 records).errorsList.take 10)] ∧
    List.Pairwise (fun a b => progVal a < progVal b)
      (runStateFrom pd store0 records).msgs ∧
    ((runStateFrom pd store0 records).msgs.all
      fun m => decide (progVal m ≤ records.length)) = true := by
  have hsum : (runStateFrom pd store0 records).processed +
      (runStateFrom pd store0 records).errors = records.length := by
    rw [runStateFrom_eq_rows]
    have := processRowsFrom_sum pd records.length records 0 (initRun store0)
    simpa [initRun] using this
  have hinv : msgsInv records.length (runStateFrom pd store0 records) := by
    rw [runStateFrom_eq_rows]
    refine processRowsFrom_msgsInv pd records.length records 0 (initRun store0) ?_
    constructor
    · intro m hm
      simp [initRun] at hm
    · simp [initRun]
  refine ⟨hsum, rfl, hinv.2, ?_⟩
  rw [List.all_eq_true]
  intro m hm
  rcases hinv.1 m hm with ⟨pval, hp, hple⟩
  rw [hp]
  simp only [progVal, decide_eq_true_eq]
  omega

/-- C6: in an exception-free run the outbound sequence is exactly one
progress message at each positive multiple of 50 processed rows, in order,
followed by the single `done`. -/
theorem c6_progress_cadence (pd : String → Option Nat) (store0 : Store)
    (records : List CsvRecord)
    (h : (runStateFrom pd store0 records).errors = 0) :
    workerMsgs pd store0 records =
      ((List.range (records.length / 50)).map fun k =>
        Msg.progress (50 * (k + 1)) records.length) ++
      [Msg.done true records.length 0 records.length []] := by
  have heq := runStateFrom_eq_rows pd store0 records
  rw [heq] at h
  have hm := processRowsFrom_msgs_of_no_err pd records.length records 0
    (initRun store0) (by simpa [initRun] using h)
  have herrlen : (processRowsFrom pd records.length records 0
      (initRun store0)).errorsList.length = 0 := by
    rw [processRowsFrom_errlen pd records.length records 0 (initRun store0) rfl, h]
  have herrnil : (processRowsFrom pd records.length records 0
      (initRun store0)).errorsList = [] := List.length_eq_zero.mp herrlen
  have h1 : (runStateFrom pd store0 records).msgs =
      (List.range (records.length / 50)).map fun k =>
        Msg.progress (50 * (k + 1)) records.length := by
    rw [heq, hm.1]
    show [] ++ progressSeq records.length 0 records.length = _
    rw [List.nil_append, progressSeq_closed]
  have h2 : (runStateFrom pd store0 records).processed = records.length := by
    rw [heq, hm.2]
    simp [initRun]
  have h3 : (runStateFrom pd store0 records).errors = 0 := by rw [heq]; exact h
  have h4 : (runStateFrom pd store0 records).errorsList = [] := by
    rw [heq]
    exact herrnil
  show (runStateFrom pd store0 records).msgs ++
      [doneMsg records.length (runStateFrom pd store0 records)] = _
  rw [h1]
  unfold doneMsg
  rw [h2, h3, h4]
  rfl

set_option maxRecDepth 40000 in
/-- Witness for C6: 205 well-formed rows post progress at 50, 100, 150,
200, then a single done. -/
theorem c6_progress_cadence_witness :
    (runStateFrom pdStd emptyStore (List.replicate 205 goodRow)).errors = 0 ∧
    workerMsgs pdStd emptyStore (List.replicate 205 goodRow) =
      [Msg.progress 50 205, Msg.progress 100 205, Msg.progress 150 205,
       Msg.progress 200 205, Msg.done true 205 0 205 []] := by
  have h : (runStateFrom pdStd emptyStore (List.replicate 205 goodRow)).errors = 0 := by
    decide
  refine ⟨h, ?_⟩
  rw [c6_progress_cadence pdStd emptyStore (List.replicate 205 goodRow) h]
  rfl

/-- The policy section changes storage exactly under the full creation
guard. -/
theorem policiesAfter_ne_iff (r : CsvRecord) (lobId carrierId : Option Nat)
    (uid : Nat) (sd ed : Option Nat) (ps : List PolicyDoc) :
    (policiesAfter r lobId carrierId uid sd ed ps ≠ ps ↔
      (r.policy_number ≠ "" ∧ lobId.isSome = true ∧ carrierId.isSome = true ∧
        sd.isSome = true ∧ ed.isSome = true ∧
        policyFind ps r.policy_number = none)) := by
  rcases lobId with _ | lid <;> rcases carrierId with _ | cid <;>
    rcases sd with _ | sd0 <;> rcases ed with _ | ed0 <;>
    simp [policiesAfter]
  by_cases hpn : r.policy_number = ""
  · simp [hpn]
  · rcases hf : policyFind ps r.policy_number with _ | p
    · simp [hpn, hf]
    · simp [hpn, hf]

/-- C1 (amended): a Policy is created for a row iff the policy number is
present, the LOB and Carrier labels are non-empty, Person resolution
succeeded, both policy dates parse, and no Policy with that number is
stored; a row failing the guard creates nothing, and it is error-free
exactly when Person resolution did not throw — a failed Person resolution
records a row error instead of a silent skip.  Agent and UserAccount
resolution play no part in the guard. -/
theorem c1_policy_creation_amended (pd : String → Option Nat) (total i : Nat)
    (r : CsvRecord) (st : RunState) :
    ((processRow pd total i r st).store.policies ≠ st.store.policies ↔
      (r.policy_number ≠ "" ∧ r.category_name ≠ "" ∧ r.company_name ≠ "" ∧
        exceptOk (userStepOf pd r st).1 = true ∧
        (parseDateField pd r.policy_start_date).isSome = true ∧
        (parseDateField pd r.policy_end_date).isSome = true ∧
        policyFind st.store.policies r.policy_number = none)) ∧
    ((processRow pd total i r st).store.policies ≠ st.store.policies →
      ∃ pol, (processRow pd total i r st).store.policies = pol :: st.store.policies ∧
        pol.policy_number = r.policy_number) ∧
    (exceptOk (userStepOf pd r st).1 = true →
      (processRow pd total i r st).errorsList = st.errorsList) ∧
    (exceptOk (userStepOf pd r st).1 = false →
      (processRow pd total i r st).store.policies = st.store.policies ∧
      (processRow pd total i r st).errorsList =
        st.errorsList ++ [⟨i, "User validation failed", pnOrNA r⟩]) := by
  have hpol : (processRow pd total i r st).store.policies =
      (match (userStepOf pd r st).1 with
       | Except.error _ => st.store.policies
       | Except.ok uid =>
         policiesAfter r (afterCarrier r st).1 (afterCarrier r st).2.1 uid
           (parseDateField pd r.policy_start_date)
           (parseDateField pd r.policy_end_date) st.store.policies) := by
    rw [processRow_policies, body_policies]
  cases hu : (userStepOf pd r st).1 with
  | error e =>
    have hP : (processRow pd total i r st).store.policies = st.store.policies := by
      rw [hpol, hu]
    have hbe : (processRecordBody pd total r st).1 = some e := by
      rw [body_fst_eq, hu]
    have hev : e = "User validation failed" := body_fst_some_val pd total r st e hbe
    refine ⟨?_, ?_, ?_, ?_⟩
    · rw [hP]
      simp [exceptOk]
    · intro hne
      exact absurd hP hne
    · intro hok
      simp [exceptOk] at hok
    · intro hx
      refine ⟨hP, ?_⟩
      subst hev
      rw [processRow_of_err pd total i r st _ hbe]
  | ok uid =>
    have hP : (processRow pd total i r st).store.policies =
        policiesAfter r (afterCarrier r st).1 (afterCarrier r st).2.1 uid
          (parseDateField pd r.policy_start_date)
          (parseDateField pd r.policy_end_date) st.store.policies := by
      rw [hpol, hu]
    have hbe : (processRecordBody pd total r st).1 = none := by
      rw [body_fst_eq, hu]
    have hlob : ((afterCarrier r st).1.isSome = true) ↔ r.category_name ≠ "" := by
      rw [Option.isSome_iff_ne_none]
      exact not_congr (afterCarrier_lobId_none_iff r st)
    have hcar : ((afterCarrier r st).2.1.isSome = true) ↔ r.company_name ≠ "" := by
      rw [Option.isSome_iff_ne_none]
      exact not_congr (afterCarrier_carrierId_none_iff r st)
    refine ⟨?_, ?_, ?_, ?_⟩
    · rw [hP, policiesAfter_ne_iff, hlob, hcar]
      simp only [exceptOk]
      constructor
      · rintro ⟨h1, h2, h3, h4, h5, h6⟩
        exact ⟨h1, h2, h3, trivial, h4, h5, h6⟩
      · rintro ⟨h1, h2, h3, hx, h4, h5, h6⟩
        exact ⟨h1, h2, h3, h4, h5, h6⟩
    · intro hne
      rw [hP] at hne ⊢
      obtain ⟨hpn, hl, hcr, hsd, hed, hfind⟩ :=
        (policiesAfter_ne_iff r _ _ uid _ _ _).mp hne
      rcases ho1 : (afterCarrier r st).1 with _ | lid
      · rw [ho1] at hl
        simp at hl
      rcases ho2 : (afterCarrier r st).2.1 with _ | cid
      · rw [ho2] at hcr
        simp at hcr
      rcases ho3 : parseDateField pd r.policy_start_date with _ | sd0
      · rw [ho3] at hsd
        simp at hsd
      rcases ho4 : parseDateField pd r.policy_end_date with _ | ed0
      · rw [ho4] at hed
        simp at hed
      rw [policiesAfter_cons r lid cid uid sd0 ed0 st.store.policies hpn hfind]
      exact ⟨⟨r.policy_number, sd0, ed0, lid, cid, uid⟩, rfl, rfl⟩
    · intro hx
      rw [processRow_of_ok pd total i r st hbe]
      exact (body_ok_state pd total r st hbe).2.2.1
    · intro hok
      simp [exceptOk] at hok

/-- Counterexample to C1 as frozen: a row whose policy data is complete
but whose Person resolution fails (missing first name) is not an
error-free skip — the engine records an error entry for it. -/
theorem c1_claim_counterexample :
    exceptOk (userStepOf pdStd noPersonPolicyRow (initRun emptyStore)).1 = false ∧
    (processRow pdStd 1 1 noPersonPolicyRow (initRun emptyStore)).store.policies = [] ∧
    (processRow pdStd 1 1 noPersonPolicyRow (initRun emptyStore)).errorsList.length = 1 := by
  decide

/-- Witness for C1 (amended) at a fully valid policy row. -/
theorem c1_policy_creation_amended_witness :
    exceptOk (userStepOf pdStd goodPolicyRow (initRun emptyStore)).1 = true ∧
    (processRow pdStd 1 1 goodPolicyRow (initRun emptyStore)).errorsList = [] := by
  have h := (c1_policy_creation_amended pdStd 1 1 goodPolicyRow (initRun emptyStore)).2.2.1
  have hok : exceptOk (userStepOf pdStd goodPolicyRow (initRun emptyStore)).1 = true := by
    decide
  refine ⟨hok, ?_⟩
  rw [h hok]
  rfl

/-- C3 (amended): a row whose Person resolution succeeds is always a
skip-or-success counted in `processed` with no error entry — in particular
rows whose policy start or end date fails to parse; a row whose Person
resolution throws (which happens exactly when there is no cache hit, no
stored (firstname, email) match, and the first name is missing or the dob
is absent/unparseable) is recorded as an error instead; the next row is
processed regardless. -/
theorem c3_bad_date_amended (pd : String → Option Nat) (total i : Nat)
    (r : CsvRecord) (rest : List CsvRecord) (st : RunState) :
    (exceptOk (userStepOf pd r st).1 = true →
      (processRow pd total i r st).processed = st.processed + 1 ∧
      (processRow pd total i r st).errors = st.errors ∧
      (processRow pd total i r st).errorsList = st.errorsList) ∧
    (exceptOk (userStepOf pd r st).1 = false →
      (processRow pd total i r st).processed = st.processed ∧
      (processRow pd total i r st).errors = st.errors + 1 ∧
      (processRow pd total i r st).errorsList =
        st.errorsList ++ [⟨i, "User validation failed", pnOrNA r⟩]) ∧
    (exceptOk (userStepOf pd r st).1 = true ↔
      ((mapFind st.userCache (userKey (userDataOf r))).isSome = true ∨
        (r.firstname ≠ "" ∧ r.email ≠ "" ∧
          (userFind st.store.users r.firstname r.email).isSome = true) ∨
        (r.firstname ≠ "" ∧ (parseDateField pd r.dob).isSome = true))) ∧
    (processRowsFrom pd total (r :: rest) i st =
      processRowsFrom pd total rest (i + 1) (processRow pd total (i + 1) r st)) := by
  refine ⟨?_, ?_, userStepOf_ok_iff pd r st, rfl⟩
  · intro hok
    have hbe : (processRecordBody pd total r st).1 = none := by
      rw [body_fst_eq]
      rcases hu : (userStepOf pd r st).1 with e | id
      · rw [hu] at hok
        simp [exceptOk] at hok
      · rfl
    rw [processRow_of_ok pd total i r st hbe]
    have hs := body_ok_state pd total r st hbe
    exact ⟨hs.1, hs.2.1, hs.2.2.1⟩
  · intro hok
    rcases hu : (userStepOf pd r st).1 with e | id
    · have hbe : (processRecordBody pd total r st).1 = some e := by
        rw [body_fst_eq, hu]
      have hev : e = "User validation failed" := body_fst_some_val pd total r st e hbe
      subst hev
      rw [processRow_of_err pd total i r st _ hbe]
      have hs := body_err_state pd total r st _ hbe
      exact ⟨hs.1, rfl, rfl⟩
    · rw [hu] at hok
      simp [exceptOk] at hok

/-- Counterexample to C3 as frozen: a row with an unparseable person date
of birth (and a new person to create) is not a silent skip — it increments
the error counter, appears in `errorsList`, and is not counted in
`processed`. -/
theorem c3_claim_counterexample :
    (processRow pdStd 1 1 badDobRow (initRun emptyStore)).errors = 1 ∧
    (processRow pdStd 1 1 badDobRow (initRun emptyStore)).processed = 0 ∧
    (processRow pdStd 1 1 badDobRow (initRun emptyStore)).errorsList.length = 1 := by
  decide

/-- Witness for C3 (amended): an unparseable policy start date is a skip,
not an error. -/
theorem c3_bad_date_amended_witness :
    exceptOk (userStepOf pdStd badPolicyDateRow (initRun emptyStore)).1 = true ∧
    (processRow pdStd 1 1 badPolicyDateRow (initRun emptyStore)).processed = 1 ∧
    (processRow pdStd 1 1 badPolicyDateRow (initRun emptyStore)).errors = 0 ∧
    (processRow pdStd 1 1 badPolicyDateRow (initRun emptyStore)).errorsList = [] := by
  have hok : exceptOk (userStepOf pdStd badPolicyDateRow (initRun emptyStore)).1 = true := by
    decide
  have h := (c3_bad_date_amended pdStd 1 1 badPolicyDateRow [] (initRun emptyStore)).1 hok
  exact ⟨hok, by rw [h.1]; rfl, by rw [h.2.1]; rfl, by rw [h.2.2]; rfl⟩

/-- C8 (amended): a row with a missing first name or email never queries
storage for a Person match; it goes straight to creation, which succeeds
(appending a fresh Person) iff the first name is present and the dob
parses, and otherwise throws the validation error, creating nothing.  A
stored Person is reused only when both first name and email are present
and storage holds a match. -/
theorem c8_person_resolution_amended (pd : String → Option Nat) (ud : UserData)
    (st : RunState) :
    ((ud.firstname = "" ∨ ud.email = "") →
      mapFind st.userCache (userKey ud) = none →
      ((∀ a b, countOp (StoreOp.userLookup a b) (getOrCreateUser pd ud st).2.ops =
          countOp (StoreOp.userLookup a b) st.ops) ∧
        (exceptOk (getOrCreateUser pd ud st).1 = true ↔
          (ud.firstname ≠ "" ∧ (parseDateField pd ud.dob).isSome = true)) ∧
        (exceptOk (getOrCreateUser pd ud st).1 = true →
          (getOrCreateUser pd ud st).2.store.users =
            (st.store.nextId, newUserDoc pd ud) :: st.store.users) ∧
        (exceptOk (getOrCreateUser pd ud st).1 = false →
          (getOrCreateUser pd ud st).1 = Except.error "User validation failed" ∧
          (getOrCreateUser pd ud st).2.store.users = st.store.users))) ∧
    (∀ id, mapFind st.userCache (userKey ud) = none →
      (getOrCreateUser pd ud st).1 = Except.ok id →
      (getOrCreateUser pd ud st).2.store.users = st.store.users →
      (ud.firstname ≠ "" ∧ ud.email ≠ "" ∧
        userFind st.store.users ud.firstname ud.email = some id)) := by
  constructor
  · intro hg hmiss
    rcases userResolve_spec pd ud
        ⟨st.userCache, st.store.users, st.store.nextId, st.ops⟩ with
      ⟨id, hc, he⟩ | ⟨hc, h1, h2, id, hf, he⟩ | ⟨hc, h1, h2, hf, hv, he⟩ |
      ⟨hc, h1, h2, hf, hv, he⟩ | ⟨hc, hg2, hv, he⟩ | ⟨hc, h1, h2, hv, he⟩
    · rw [hmiss] at hc
      cases hc
    · rcases hg with hg | hg
      · exact absurd hg h1
      · exact absurd hg h2
    · rcases hg with hg | hg
      · exact absurd hg h1
      · exact absurd hg h2
    · rcases hg with hg | hg
      · exact absurd hg h1
      · exact absurd hg h2
    · refine ⟨?_, ?_, ?_, ?_⟩
      · intro a b
        rw [getOrCreateUser_ops, he]
      · rw [getOrCreateUser_fst, he]
        simp only [exceptOk]
        constructor
        · intro hx
          cases hx
        · rintro ⟨hfn, hdob⟩
          rcases hv with hv | hv
          · exact absurd hv hfn
          · rw [hv] at hdob
            cases hdob
      · intro hx
        rw [getOrCreateUser_fst, he] at hx
        cases hx
      · intro hx
        refine ⟨?_, ?_⟩
        · rw [getOrCreateUser_fst, he]
        · rw [getOrCreateUser_users, he]
    · refine ⟨?_, ?_, ?_, ?_⟩
      · intro a b
        rw [getOrCreateUser_ops, he]
        simp
      · rw [getOrCreateUser_fst, he]
        have hdob := Option.ne_none_iff_isSome.mp hv
        simp [exceptOk, h1, hdob]
      · intro hx
        rw [getOrCreateUser_users, he]
      · intro hx
        rw [getOrCreateUser_fst, he] at hx
        cases hx
  · intro id hmiss hok husers
    rw [getOrCreateUser_fst] at hok
    rw [getOrCreateUser_users] at husers
    rcases userResolve_spec pd ud
        ⟨st.userCache, st.store.users, st.store.nextId, st.ops⟩ with
      ⟨id2, hc, he⟩ | ⟨hc, h1, h2, id2, hf, he⟩ | ⟨hc, h1, h2, hf, hv, he⟩ |
      ⟨hc, h1, h2, hf, hv, he⟩ | ⟨hc, hg2, hv, he⟩ | ⟨hc, h1, h2, hv, he⟩
    · rw [hmiss] at hc
      cases hc
    · rw [he] at hok
      simp at hok
      subst hok
      exact ⟨h1, h2, hf⟩
    · rw [he] at hok
      cases hok
    · rw [he] at husers
      simp at husers
    · rw [he] at hok
      cases hok
    · rw [he] at husers
      simp at husers

/-- Counterexample to C8 as frozen: a row with a missing first name does
not "always create a new Person" — the creation throws the schema
validation error and no Person is stored. -/
theorem c8_claim_counterexample :
    exceptOk (getOrCreateUser pdNone ⟨"", "", "", "", "", "", "e@x.com", "", ""⟩
      (initRun emptyStore)).1 = false ∧
    (getOrCreateUser pdNone ⟨"", "", "", "", "", "", "e@x.com", "", ""⟩
      (initRun emptyStore)).2.store.users = [] := by
  decide

/-- Witness for C8 (amended): missing email, valid first name and dob — a
fresh Person is created without a storage query. -/
theorem c8_person_resolution_amended_witness :
    ((⟨"A", "2020-01-01", "", "", "", "", "", "", ""⟩ : UserData).email = "") ∧
    mapFind (initRun emptyStore).userCache
      (userKey ⟨"A", "2020-01-01", "", "", "", "", "", "", ""⟩) = none ∧
    (getOrCreateUser pdStd ⟨"A", "2020-01-01", "", "", "", "", "", "", ""⟩
        (initRun emptyStore)).2.store.users =
      ((initRun emptyStore).store.nextId,
        newUserDoc pdStd ⟨"A", "2020-01-01", "", "", "", "", "", "", ""⟩) ::
          (initRun emptyStore).store.users := by
  have h := (c8_person_resolution_amended pdStd
    ⟨"A", "2020-01-01", "", "", "", "", "", "", ""⟩ (initRun emptyStore)).1
    (Or.inr rfl) rfl
  exact ⟨rfl, rfl, h.2.2.1 (by decide)⟩

/-- C2 (amended): within one run, each distinct non-empty Agent/LOB/Carrier
label gets exactly one storage lookup when some row mentions it and none
otherwise, each UserAccount label gets at most one lookup (a label
mentioned only by rows whose Person resolution threw gets none, because
account resolution follows person resolution), and no family ever creates
more than it looks up. -/
theorem c2_cache_correctness_amended (pd : String → Option Nat) (store0 : Store)
    (records : List CsvRecord) (l : String) (hl : l ≠ "") :
    countOp (StoreOp.lookup Family.agent l) (runStateFrom pd store0 records).ops =
      (if (records.any fun r2 => r2.agent == l) then 1 else 0) ∧
    countOp (StoreOp.lookup Family.lob l) (runStateFrom pd store0 records).ops =
      (if (records.any fun r2 => r2.category_name == l) then 1 else 0) ∧
    countOp (StoreOp.lookup Family.carrier l) (runStateFrom pd store0 records).ops =
      (if (records.any fun r2 => r2.company_name == l) then 1 else 0) ∧
    countOp (StoreOp.lookup Family.account l) (runStateFrom pd store0 records).ops ≤ 1 ∧
    (∀ f, countOp (StoreOp.create f l) (runStateFrom pd store0 records).ops ≤
      countOp (StoreOp.lookup f l) (runStateFrom pd store0 records).ops) := by
  have hinv := runStateFrom_refInv pd store0 records
  have key : ∀ f, f ≠ Family.account →
      countOp (StoreOp.lookup f l) (runStateFrom pd store0 records).ops =
        (if (records.any fun r2 => labelOf f r2 == l) then 1 else 0) := by
    intro f hf
    rw [(hinv f l hl).1]
    by_cases hA : (records.any fun r2 => labelOf f r2 == l) = true
    · have hS := (runStateFrom_cache_mem pd store0 records f hf l hl).mpr hA
      rw [hS, hA]
    · have hS : ¬((mapFind (cacheOf f (runStateFrom pd store0 records)) l).isSome = true) :=
        fun hx => hA ((runStateFrom_cache_mem pd store0 records f hf l hl).mp hx)
      simp only [Bool.not_eq_true] at hS hA
      rw [hS, hA]
  refine ⟨?_, ?_, ?_, ?_, fun f => (hinv f l hl).2⟩
  · have h := key Family.agent (by simp)
    simpa [labelOf] using h
  · have h := key Family.lob (by simp)
    simpa [labelOf] using h
  · have h := key Family.carrier (by simp)
    simpa [labelOf] using h
  · rw [(hinv Family.account l hl).1]
    split <;> omega

/-- Counterexample to C2 as frozen: a UserAccount label mentioned by the
only row of a payload gets zero storage lookups (not exactly one) when
that row's Person resolution throws before account resolution. -/
theorem c2_claim_counterexample :
    ([accountOnlyRow].any fun r2 => r2.account_name == "X") = true ∧
    countOp (StoreOp.lookup Family.account "X")
      (runStateFrom pdNone emptyStore [accountOnlyRow]).ops = 0 := by
  decide

/-- Witness for C2 (amended): two rows sharing the carrier label "Acme". -/
theorem c2_cache_correctness_amended_witness :
    ("Acme" : String) ≠ "" ∧
    countOp (StoreOp.lookup Family.carrier "Acme")
      (runStateFrom pdStd emptyStore [goodPolicyRow, goodPolicyRow]).ops =
      (if ([goodPolicyRow, goodPolicyRow].any fun r2 => r2.company_name == "Acme")
        then 1 else 0) := by
  refine ⟨by decide, ?_⟩
  exact (c2_cache_correctness_amended pdStd emptyStore [goodPolicyRow, goodPolicyRow]
    "Acme" (by decide)).2.2.1

end CsvWorker
